import Mathlib

/-!
Shallow embedding of the OpenAgricultureFoundation mqtt-service core
(`src/utils.py`): the legacy chunked-image reassembler (`save_image` and its
datastore helpers), the upload-notice watcher (`save_uploaded_image`), the
bounded per-device history cache (`save_data_to_Device`), and the BigQuery
row construction (`makeBQRowList`, `bq_data_insert`).

Conventions of the embedding:
* The Cloud Datastore is modelled as explicit lists of entities inside
  `DState`.  A `put` with an incomplete key (as `saveImageChunkToDatastore`
  and `saveTurd` perform) allocates a fresh entity, hence is modelled as a
  list append; queries are list filters.
* Python exceptions that the source catches at the outer handler are
  modelled by explicit outcome values (`SaveImageOutcome`) or by `Option`.
* Calls into external libraries whose success is environment dependent
  (the BigQuery insert, `ast.literal_eval`) take an explicit oracle
  argument describing the outcome of each call.
* Wall-clock values (`time.strftime`) enter as an explicit `ts` argument.
-/

namespace MqttService

/-- One entity of kind `MqttServiceCache`: a stored base64 image chunk
(`saveImageChunkToDatastore`). -/
structure ChunkRec where
  deviceId : String
  messageId : String
  varName : String
  imageType : String
  chunkNum : Nat
  totalChunks : Nat
  imageChunk : String
  timestamp : String
deriving DecidableEq, Repr

/-- One entity of kind `MqttServiceTurds`: marker of an abandoned image
(`saveTurd`). -/
structure Turd where
  deviceId : String
  messageId : String
  timestamp : String
deriving DecidableEq, Repr

/-- One entity of kind `Images`: a published image URL for the UI
(`saveImageURLtoDatastore`). -/
structure ImageURLRec where
  device_uuid : String
  URL : String
  camera_name : String
  creation_date : String
deriving DecidableEq, Repr

/-- One object written to cloud storage by `saveFileInCloudStorage`. -/
structure BlobWrite where
  bucket : String
  filename : String
  content : Option (List Nat)
  contentType : String
deriving DecidableEq, Repr

/-- One row of the BigQuery `vals` table: `(id, values, X, Y)`. -/
structure BQRow where
  id : String
  values : String
  x : Nat
  y : Nat
deriving DecidableEq, Repr

/-- The mutable world seen by the chunked-image and telemetry paths:
datastore entity lists, storage writes and warehouse rows. -/
structure DState where
  chunks : List ChunkRec
  turds : List Turd
  images : List ImageURLRec
  blobs : List BlobWrite
  bqRows : List BQRow
deriving DecidableEq, Repr

/-- A decoded telemetry message (the `pydict`): every key the handlers look
at, each optional because `validDictKey` is checked at runtime. -/
structure Msg where
  messageType : String
  var : Option String
  values : Option String
  varName : Option String
  imageType : Option String
  chunk : Option Nat
  totalChunks : Option Nat
  imageChunk : Option String
  messageID : Option String
  fileName : Option String
deriving DecidableEq, Repr

/-- `validateMessageType`: the closed set of accepted message types. -/
def validateMessageType (t : String) : Option String :=
  if t = "EnvVar" then some "EnvVar"
  else if t = "CommandReply" then some "CommandReply"
  else if t = "Image" then some "Image"
  else if t = "ImageUpload" then some "ImageUpload"
  else none

/-- `DS_env_vars_MAX_size`: cap on each per-variable history list. -/
def DS_env_vars_MAX_size : Nat := 100

/-- `NUM_RETRIES` as defined at the top of `utils.py`. -/
def NUM_RETRIES : Nat := 3

/-! ### Datastore helpers of the chunk path -/

/-- Predicate of the queries filtering on `deviceId` and `messageId`. -/
def chunkMatches (deviceId messageId : String) (c : ChunkRec) : Bool :=
  c.deviceId == deviceId && c.messageId == messageId

/-- A `MqttServiceTurds` query filter on `deviceId` and `messageId`. -/
def turdMatches (deviceId messageId : String) (t : Turd) : Bool :=
  t.deviceId == deviceId && t.messageId == messageId

/-- `saveImageChunkToDatastore`: `DS.put` with an incomplete key, i.e. a
fresh entity is appended (no overwrite). -/
def saveImageChunkToDatastore (s : DState) (deviceId messageId varName
    imageType : String) (chunkNum totalChunks : Nat) (imageChunk ts : String) :
    DState :=
  { s with chunks := s.chunks ++
      [⟨deviceId, messageId, varName, imageType, chunkNum, totalChunks,
        imageChunk, ts⟩] }

/-- `getImageChunksFromDatastore`: all chunk entities of one
`(deviceId, messageId)`. -/
def getImageChunksFromDatastore (s : DState) (deviceId messageId : String) :
    List ChunkRec :=
  s.chunks.filter (chunkMatches deviceId messageId)

/-- `deleteImageChunksFromDatastore`. -/
def deleteImageChunksFromDatastore (s : DState) (deviceId messageId : String) :
    DState :=
  { s with chunks := s.chunks.filter (fun c => !chunkMatches deviceId messageId c) }

/-- `saveTurd`: again a `put` under an incomplete key, hence an append. -/
def saveTurd (s : DState) (deviceId messageId ts : String) : DState :=
  { s with turds := s.turds ++ [⟨deviceId, messageId, ts⟩] }

/-- `getTurds`: all turd entities of one device. -/
def getTurds (s : DState) (deviceId : String) : List Turd :=
  s.turds.filter (fun t => t.deviceId == deviceId)

/-- `deleteTurd`: delete every turd of one `(deviceId, messageId)`. -/
def deleteTurd (s : DState) (deviceId messageId : String) : DState :=
  { s with turds := s.turds.filter (fun t => !turdMatches deviceId messageId t) }

/-- The stale-turd loop in `save_image` (lines 474-479): for every turd of
this device whose `messageId` differs from the current one, delete its
chunk set and the turd itself.  The loop iterates over the snapshot
returned by `getTurds`. -/
def reapTurds (s : DState) (deviceId messageId : String) : DState :=
  (getTurds s deviceId).foldl
    (fun st t =>
      if t.messageId == messageId then st
      else deleteTurd (deleteImageChunksFromDatastore st deviceId t.messageId)
        deviceId t.messageId)
    s

/-! ### base64 decoding (`base64.b64decode`)

Characters outside the alphabet are discarded, the remaining text must be
a sequence of 4-character quanta; after a quantum closed by `=` padding
decoding continues with the next quantum (the non-strict mode of
`binascii.a2b_base64`); failure (`binascii.Error`) is `none`. -/

/-- Value of one base64 alphabet character. -/
def b64Val (c : Char) : Option Nat :=
  if 'A' ≤ c ∧ c ≤ 'Z' then some (c.toNat - 65)
  else if 'a' ≤ c ∧ c ≤ 'z' then some (c.toNat - 71)
  else if '0' ≤ c ∧ c ≤ '9' then some (c.toNat + 4)
  else if c = '+' then some 62
  else if c = '/' then some 63
  else none

/-- Decode a list of base64 quanta into bytes. -/
def b64DecodeCore : List Char → Option (List Nat)
  | [] => some []
  | a :: b :: c :: d :: rest =>
    match b64Val a, b64Val b with
    | some va, some vb =>
      if c = '=' then
        if d = '=' then
          match b64DecodeCore rest with
          | some more => some ([va * 4 + vb / 16] ++ more)
          | none => none
        else none
      else
        match b64Val c with
        | some vc =>
          if d = '=' then
            match b64DecodeCore rest with
            | some more =>
              some ([va * 4 + vb / 16, (vb % 16) * 16 + vc / 4] ++ more)
            | none => none
          else
            match b64Val d with
            | some vd =>
              match b64DecodeCore rest with
              | some more =>
                some ([va * 4 + vb / 16, (vb % 16) * 16 + vc / 4,
                  (vc % 4) * 64 + vd] ++ more)
              | none => none
            | none => none
        | none => none
    | _, _ => none
  | _ => none

/-- `base64.b64decode` on a string. -/
def b64decode (s : String) : Option (List Nat) :=
  b64DecodeCore (s.data.filter (fun c => (b64Val c).isSome || c == '='))

/-! ### BigQuery row construction and insertion -/

/-- `deviceId.replace('~','')` / `varName.replace('~','')`. -/
def stripTilde (s : String) : String :=
  ⟨s.data.filter (fun c => !(c == '~'))⟩

/-- `makeBQEnvVarRowList`: build the single row for an EnvVar-shaped
message, or nothing when `var`/`values` is missing. -/
def makeBQEnvVarRowList (m : Msg) (deviceId idKey ts : String) : List BQRow :=
  match m.var, m.values with
  | some varName, some values =>
    [⟨idKey ++ "~" ++ stripTilde varName ++ "~" ++ ts ++ "~" ++
        stripTilde deviceId, values, 0, 0⟩]
  | _, _ => []

/-- `makeBQRowList`: rows to insert and the boolean the source returns. -/
def makeBQRowList (m : Msg) (deviceId ts : String) : List BQRow × Bool :=
  match validateMessageType m.messageType with
  | none => ([], false)
  | some t =>
    if t = "EnvVar" ∨ t = "Image" then
      (makeBQEnvVarRowList m deviceId "Env" ts, true)
    else if t = "CommandReply" then
      (makeBQEnvVarRowList m deviceId "Cmd" ts, true)
    else ([], false)

/-- `bq_data_insert`.  `outcome k` tells whether the `k`-th API attempt
would succeed; the returned `Nat` counts the attempts actually made.  The
source makes a single attempt: on an API exception it logs and returns
`False`, otherwise `True`. -/
def bq_data_insert (outcome : Nat → Bool) (s : DState) (m : Msg)
    (deviceId ts : String) : DState × Bool × Nat :=
  let (rows, ok) := makeBQRowList m deviceId ts
  if ok = false then (s, false, 0)
  else if outcome 0 then ({ s with bqRows := s.bqRows ++ rows }, true, 1)
  else (s, false, 1)

/-- Modelled from the spec: the warehouse writer "performs the insert with
a small fixed retry budget" of `NUM_RETRIES = 3` attempts, returning a
failure signal only after all attempts fail.  (The source defines
`NUM_RETRIES` but `bq_data_insert` never uses it; this definition exists
to compare that specified behaviour with the code's.) -/
def bq_data_insert_specRetry (outcome : Nat → Bool) (s : DState) (m : Msg)
    (deviceId ts : String) : DState × Bool × Nat :=
  let (rows, ok) := makeBQRowList m deviceId ts
  if ok = false then (s, false, 0)
  else if outcome 0 then ({ s with bqRows := s.bqRows ++ rows }, true, 1)
  else if outcome 1 then ({ s with bqRows := s.bqRows ++ rows }, true, 2)
  else if outcome 2 then ({ s with bqRows := s.bqRows ++ rows }, true, 3)
  else (s, false, 3)

/-! ### Image publication helpers -/

/-- File name built by `saveFileInCloudStorage`. -/
def imageFileName (deviceId varName ts imageType : String) : String :=
  deviceId ++ "_" ++ varName ++ "_" ++ ts ++ "." ++ imageType

/-- Public URL of an object of a bucket. -/
def publicURL (bucket filename : String) : String :=
  "https://storage.googleapis.com/" ++ bucket ++ "/" ++ filename

/-- `saveFileInCloudStorage`: upload the image bytes, return the URL. -/
def saveFileInCloudStorage (s : DState) (varName imageType : String)
    (imageBytes : Option (List Nat)) (deviceId bucket ts : String) :
    DState × String :=
  let filename := imageFileName deviceId varName ts imageType
  ({ s with blobs := s.blobs ++
      [⟨bucket, filename, imageBytes, "image/" ++ imageType⟩] },
    publicURL bucket filename)

/-- `saveImageURLtoDatastore`. -/
def saveImageURLtoDatastore (s : DState) (deviceId url cameraName ts : String) :
    DState :=
  { s with images := s.images ++ [⟨deviceId, url, cameraName, ts⟩] }

/-- The `values` JSON text built for the URL row
(`"\x7b'values':[\x7b'name':'URL', ..."`). -/
def urlValuesJson (url : String) : String :=
  "\x7b'values':[\x7b'name':'URL', 'type':'str', 'value':'" ++ url ++
    "'\x7d]\x7d"

/-- The `message_obj` both image paths hand to `bq_data_insert`. -/
def urlMessageObj (varName url : String) : Msg :=
  { messageType := "Image", var := some varName,
    values := some (urlValuesJson url), varName := none, imageType := none,
    chunk := none, totalChunks := none, imageChunk := none, messageID := none,
    fileName := none }

/-! ### `save_image` (legacy chunked path) -/

/-- How one `save_image` call ended.  `indexError` is the uncaught
`IndexError` of `listOfChunksReceived[oc['chunkNum']] = True` reaching the
outer exception handler; `decodeError` likewise for `base64.b64decode`. -/
inductive SaveImageOutcome where
  | invalid
  | poisonAbandoned
  | waiting
  | completed
  | indexError
  | decodeError
deriving DecidableEq, Repr

/-- `listOfChunksReceived[i] = True`: fails (raises) when `i` is not a
valid index.  (Indices here are the natural numbers of the JSON payload.) -/
def setListAt (l : List Bool) (i : Nat) : Option (List Bool) :=
  if i < l.length then some (l.set i true) else none

/-- The completion scan: start from `totalChunks` copies of `False` and
mark the index of every stored chunk; `none` is the `IndexError`. -/
def markReceived (totalChunks : Nat) (recs : List ChunkRec) :
    Option (List Bool) :=
  recs.foldlM (fun l c => setListAt l c.chunkNum) (List.replicate totalChunks false)

/-- `sorted(oldChunks, key=lambda k: k['chunkNum'])`. -/
def sortChunks (recs : List ChunkRec) : List ChunkRec :=
  List.insertionSort (fun a b => a.chunkNum ≤ b.chunkNum) recs

/-- The `b64str` accumulation loop. -/
def concatChunks (recs : List ChunkRec) : String :=
  recs.foldl (fun acc c => acc ++ c.imageChunk) ""

/-- `save_image`, after its six `validDictKey` checks have bound the
fields.  `outcome` is the BigQuery oracle, `ts` the current wall-clock
text, `bucket` the `CS_BUCKET` argument. -/
def save_image_body (outcome : Nat → Bool) (s : DState) (deviceId : String)
    (messageId varName imageType : String) (chunkNum totalChunks : Nat)
    (imageChunk ts bucket : String) : DState × SaveImageOutcome :=
  if imageChunk.length = 0 then
    -- poison chunk: drop the whole set and write a turd
    let s1 := deleteImageChunksFromDatastore s deviceId messageId
    let s2 := saveTurd s1 deviceId messageId ts
    (s2, .poisonAbandoned)
  else
    let s1 := reapTurds s deviceId messageId
    let s2 := saveImageChunkToDatastore s1 deviceId messageId varName
      imageType chunkNum totalChunks imageChunk ts
    let oldChunks := getImageChunksFromDatastore s2 deviceId messageId
    match markReceived totalChunks oldChunks with
    | none => (s2, .indexError)
    | some flags =>
      if flags.all (fun b => b) then
        let s3 := deleteImageChunksFromDatastore s2 deviceId messageId
        let s4 := deleteTurd s3 deviceId messageId
        let b64str := concatChunks (sortChunks oldChunks)
        match b64decode b64str with
        | none => (s4, .decodeError)
        | some imageBytes =>
          let (s5, url) := saveFileInCloudStorage s4 varName imageType
            (some imageBytes) deviceId bucket ts
          let s6 := saveImageURLtoDatastore s5 deviceId url varName ts
          let (s7, _, _) := bq_data_insert outcome s6
            (urlMessageObj varName url) deviceId ts
          (s7, .completed)
      else (s2, .waiting)

/-- `save_image`: validate the message type and the six required keys,
then run the body. -/
def save_image (outcome : Nat → Bool) (s : DState) (m : Msg)
    (deviceId ts bucket : String) : DState × SaveImageOutcome :=
  if validateMessageType m.messageType ≠ some "Image" then (s, .invalid)
  else
    match m.varName, m.imageType, m.chunk, m.totalChunks, m.imageChunk,
        m.messageID with
    | some varName, some imageType, some chunkNum, some totalChunks,
        some imageChunk, some messageId =>
      save_image_body outcome s deviceId messageId varName imageType
        chunkNum totalChunks imageChunk ts bucket
    | _, _, _, _, _, _ => (s, .invalid)

/-- Sequential delivery of several messages to `save_image`. -/
def deliverAll (outcome : Nat → Bool) (s : DState) (ms : List Msg)
    (deviceId ts bucket : String) : DState :=
  ms.foldl (fun st m => (save_image outcome st m deviceId ts bucket).1) s

/-- The turd entities of one `(deviceId, messageId)`. -/
def turdsFor (s : DState) (deviceId messageId : String) : List Turd :=
  s.turds.filter (turdMatches deviceId messageId)

/-- A fully populated legacy chunk message. -/
def mkChunkMsg (varName imageType messageId : String) (j N : Nat)
    (frag : String) : Msg :=
  { messageType := "Image", var := none, values := none,
    varName := some varName, imageType := some imageType, chunk := some j,
    totalChunks := some N, imageChunk := some frag,
    messageID := some messageId, fileName := none }

/-- The chunk entity such a message leaves in the datastore. -/
def mkChunkRec (d mid varName imageType : String) (j N : Nat)
    (frag ts : String) : ChunkRec :=
  ⟨d, mid, varName, imageType, j, N, frag, ts⟩

instance : IsTotal ChunkRec (fun a b => a.chunkNum ≤ b.chunkNum) :=
  ⟨fun a b => Nat.le_total a.chunkNum b.chunkNum⟩

instance : IsTrans ChunkRec (fun a b => a.chunkNum ≤ b.chunkNum) :=
  ⟨fun _ _ _ h1 h2 => Nat.le_trans h1 h2⟩

instance : IsAntisymm ChunkRec (fun a b => a.chunkNum < b.chunkNum) :=
  ⟨fun _ _ h1 h2 => (Nat.lt_asymm h1 h2).elim⟩

/-- Concatenation of the fragments of an index list, in list order. -/
def concatFrags (frag : Nat → String) (l : List Nat) : String :=
  l.foldl (fun acc i => acc ++ frag i) ""

/-! ### The per-device history cache (`save_data_to_Device`) -/

/-- One element of a per-variable history list (the `valueToSave` dict). -/
structure HEntry where
  timestamp : String
  name : String
  value : String
deriving DecidableEq, Repr

/-- The `DeviceData` kind: at most one entity per `deviceId`, carrying one
history list per variable name (a datastore property each). -/
def DeviceDataStore : Type := String → Option (String → List HEntry)

/-- History list of a `(deviceId, varName)` pair (`[]` when absent). -/
def histFor (dd : DeviceDataStore) (deviceId varName : String) : List HEntry :=
  match dd deviceId with
  | none => []
  | some ent => ent varName

/-- The `while len(valuesList) > DS_env_vars_MAX_size: valuesList.pop()`
loop: drop from the tail until the cap is met. -/
def trimTail (l : List HEntry) : List HEntry :=
  if h : l.length > DS_env_vars_MAX_size then trimTail l.dropLast else l
termination_by l.length
decreasing_by
  simp only [List.length_dropLast]
  simp only [DS_env_vars_MAX_size] at h
  omega

/-- Python `str.find(pat)` over char lists, `none` for `-1`. -/
def strFindAux (hay pat : List Char) (i : Nat) : Option Nat :=
  if pat.isPrefixOf hay then some i
  else
    match hay with
    | [] => none
    | _ :: t => strFindAux t pat (i + 1)

/-- `s.find(pat)`. -/
def pyFind (s pat : String) : Option Nat :=
  strFindAux s.data pat.data 0

/-- `s.find(pat, start)`. -/
def pyFindFrom (s pat : String) (start : Nat) : Option Nat :=
  match strFindAux (s.data.drop start) pat.data 0 with
  | none => none
  | some i => some (start + i)

/-- Normalise a Python slice endpoint against a length. -/
def pyNorm (len : Nat) (i : Int) : Nat :=
  if i < 0 then (if (len : Int) + i < 0 then 0 else ((len : Int) + i).toNat)
  else min i.toNat len

/-- Python `s[a:b]` with `Int` endpoints. -/
def pySliceInt (s : String) (a b : Int) : String :=
  ⟨((s.data.drop (pyNorm s.data.length a)).take
    (pyNorm s.data.length b - pyNorm s.data.length a))⟩

/-- Python `s[a:b]` with natural endpoints. -/
def pySliceNat (s : String) (a b : Nat) : String :=
  ⟨(s.data.drop a).take (b - a)⟩

/-- Result of `_string_to_value`: a value (already `str()`-ed) or an
exception flowing up to the outer handler. -/
inductive PyResult where
  | ok (v : String)
  | raise
deriving DecidableEq, Repr

/-- `str()` of an optional string, Python `None` printing as `"None"`. -/
def pyStrOpt : Option String → String
  | none => "None"
  | some v => v

/-- `_string_to_value`.  `strictV s` is the outcome of the strict branch
(`ast.literal_eval(s)['values'][0]['value']` then `str`), `none` when that
raises; `innerEval` likewise for the `literal_eval` of the sliced
fallback value (whose exceptions flow up). -/
def string_to_value (strictV : String → Option String)
    (innerEval : String → Option String) (s : String) : PyResult :=
  match strictV s with
  | some v => .ok v
  | none =>
    match pyFind s "'value':'", pyFind s "\x7d]\x7d" with
    | none, _ => .ok s
    | some _, none => .ok s
    | some vs, some ve =>
      match innerEval (pySliceInt s
          ((vs : Int) + (("'value':'" : String).length : Int))
          ((ve : Int) - 1)) with
      | some v => .ok v
      | none => .raise

/-- The `except` branch of `_string_to_name`: pure tag scanning. -/
def nameFallback (s : String) : Option String :=
  match pyFind s "'name':'" with
  | none => none
  | some i =>
    match pyFindFrom s "'" (i + ("'name':'" : String).length) with
    | none => none
    | some j => some (pySliceNat s (i + ("'name':'" : String).length) j)

/-- `_string_to_name`: strict branch behind the oracle `strictN` (`none`
meaning it raised), else the pure fallback scan; never raises. -/
def string_to_name (strictN : String → Option (Option String)) (s : String) :
    Option String :=
  match strictN s with
  | some n => n
  | none => nameFallback s

/-- `save_data_to_Device`: validate, extract value and name, prepend the
new entry to the per-variable list, trim to the cap, write back.  (The
retry-on-contention loop always commits on the first attempt in this
single-threaded model.) -/
def save_data_to_Device (strictV innerEval : String → Option String)
    (strictN : String → Option (Option String)) (dd : DeviceDataStore)
    (m : Msg) (deviceId ts : String) : DeviceDataStore :=
  if ¬(validateMessageType m.messageType = some "EnvVar" ∨
      validateMessageType m.messageType = some "CommandReply") then dd
  else
    match m.var, m.values with
    | some varName, some vals =>
      match string_to_value strictV innerEval vals with
      | .raise => dd
      | .ok value =>
        let entry : HEntry :=
          ⟨ts, pyStrOpt (string_to_name strictN vals), value⟩
        let ent := (dd deviceId).getD (fun _ => [])
        let newList := trimTail (entry :: ent varName)
        fun d =>
          if d = deviceId then
            some (fun vn => if vn = varName then newList else ent vn)
          else dd d
    | _, _ => dd

/-- The entry one `save_data_to_Device` call would store for a payload,
`none` when value extraction raises. -/
def histEntryOf (strictV innerEval : String → Option String)
    (strictN : String → Option (Option String)) (ts payload : String) :
    Option HEntry :=
  match string_to_value strictV innerEval payload with
  | .raise => none
  | .ok v => some ⟨ts, pyStrOpt (string_to_name strictN payload), v⟩

/-- A fully populated EnvVar message. -/
def mkEnvMsg (varName payload : String) : Msg :=
  { messageType := "EnvVar", var := some varName, values := some payload,
    varName := none, imageType := none, chunk := none, totalChunks := none,
    imageChunk := none, messageID := none, fileName := none }

/-- Feed a sequence of `(timestamp, payload)` pairs for one variable of one
device through `save_data_to_Device`. -/
def runHistoryUpdates (strictV innerEval : String → Option String)
    (strictN : String → Option (Option String)) (dd : DeviceDataStore)
    (deviceId varName : String) (pairs : List (String × String)) :
    DeviceDataStore :=
  pairs.foldl
    (fun dd pr => save_data_to_Device strictV innerEval strictN dd
      (mkEnvMsg varName pr.2) deviceId pr.1) dd

/-! ### The upload watcher (`save_uploaded_image`) -/

/-- One object of a storage bucket: its name, how old its creation time is
at the current invocation, and whether a delete call on it would raise. -/
structure BlobObj where
  name : String
  ageSeconds : Nat
  failDelete : Bool
deriving DecidableEq, Repr

/-- The two bucket contents, plus a log of performed relocations and of
sweep delete attempts. -/
structure CloudStorage where
  staging : List BlobObj
  dest : List BlobObj
  moved : List String
  sweepAttempts : List String
deriving DecidableEq, Repr

/-- `UPLOAD_BUCKET_NAME` (the staging bucket). -/
def UPLOAD_BUCKET_NAME : String := "openag-public-image-uploads"

/-- `isUploadedImageInBucket`. -/
def isUploadedImageInBucket (bs : List BlobObj) (fileName : String) : Bool :=
  bs.any (fun b => b.name == fileName)

/-- `moveFileBetweenBucketsInCloudStorage`: copy to the destination, delete
the source, return the new public URL (`none` when the file is absent). -/
def moveFileBetweenBucketsInCloudStorage (cs : CloudStorage)
    (fileName csBucket : String) : CloudStorage × Option String :=
  match cs.staging.find? (fun b => b.name == fileName) with
  | none => (cs, none)
  | some obj =>
    ({ cs with
        staging := cs.staging.filter (fun b => !(b.name == fileName)),
        dest := cs.dest ++ [obj],
        moved := cs.moved ++ [fileName] },
      some (publicURL csBucket fileName))

/-- One iteration of the 5-minute polling loop per unit of fuel (the world
is otherwise static during the invocation): stop when the file is already
at the destination, wait while it is absent from staging, else relocate
and publish the URL to the datastore and the warehouse. -/
def pollLoop (outcome : Nat → Bool) : Nat → CloudStorage → DState →
    String → String → String → String → String → CloudStorage × DState
  | 0, cs, s, _, _, _, _, _ => (cs, s)
  | fuel + 1, cs, s, deviceId, varName, fileName, ts, csBucket =>
    if isUploadedImageInBucket cs.dest fileName then (cs, s)
    else if !isUploadedImageInBucket cs.staging fileName then
      pollLoop outcome fuel cs s deviceId varName fileName ts csBucket
    else
      match moveFileBetweenBucketsInCloudStorage cs fileName csBucket with
      | (cs1, none) => (cs1, s)
      | (cs1, some url) =>
        let s1 := saveImageURLtoDatastore s deviceId url varName ts
        let s2 := (bq_data_insert outcome s1 (urlMessageObj varName url)
          deviceId ts).1
        (cs1, s2)

/-- 5 minutes of 10-second sleeps, plus the initial pass. -/
def POLL_FUEL : Nat := 31

/-- The opportunistic sweep: attempt a delete of every staging object at
least 2 hours old, suppressing individual delete failures; younger objects
pass through. -/
def sweepStale (cs : CloudStorage) : CloudStorage :=
  { cs with
      staging := cs.staging.filter
        (fun b => if 2 * 60 * 60 ≤ b.ageSeconds then b.failDelete else true),
      sweepAttempts := cs.sweepAttempts ++
        (cs.staging.filter (fun b => decide (2 * 60 * 60 ≤ b.ageSeconds))).map
          (fun b => b.name) }

/-- `save_uploaded_image`: validate the notice, poll, then sweep.  An
invalid notice returns before both the loop and the sweep. -/
def save_uploaded_image (outcome : Nat → Bool) (cs : CloudStorage)
    (s : DState) (m : Msg) (deviceId ts csBucket : String) :
    CloudStorage × DState :=
  if validateMessageType m.messageType ≠ some "ImageUpload" then (cs, s)
  else
    match m.varName, m.fileName with
    | some varName, some fileName =>
      let (cs1, s1) := pollLoop outcome POLL_FUEL cs s deviceId varName
        fileName ts csBucket
      (sweepStale cs1, s1)
    | _, _ => (cs, s)

/-- `save_data`: route one validated message to its handler. -/
def save_data (outcome : Nat → Bool)
    (strictV innerEval : String → Option String)
    (strictN : String → Option (Option String))
    (cs : CloudStorage) (s : DState) (dd : DeviceDataStore) (m : Msg)
    (deviceId ts csBucket : String) :
    CloudStorage × DState × DeviceDataStore :=
  if validateMessageType m.messageType = some "Image" then
    (cs, (save_image outcome s m deviceId ts csBucket).1, dd)
  else if validateMessageType m.messageType = some "ImageUpload" then
    let (cs1, s1) := save_uploaded_image outcome cs s m deviceId ts csBucket
    (cs1, s1, dd)
  else
    let dd1 := save_data_to_Device strictV innerEval strictN dd m deviceId ts
    ((cs, (bq_data_insert outcome s m deviceId ts).1, dd1))

/-! ### Concrete material for the witnesses -/

/-- The empty datastore/warehouse world. -/
def emptyDState : DState := ⟨[], [], [], [], []⟩

/-- The empty device-data store. -/
def emptyDD : DeviceDataStore := fun _ => none

/-- Fragments of the three-chunk example image (`A`, `B`, `C`). -/
def fragW (i : Nat) : String :=
  if i = 0 then "QQ==" else if i = 1 then "Qg==" else "Qw=="

/-- A fully populated ImageUpload notice. -/
def mkUploadMsg (varName fileName : String) : Msg :=
  { messageType := "ImageUpload", var := none, values := none,
    varName := some varName, imageType := none, chunk := none,
    totalChunks := none, imageChunk := none, messageID := none,
    fileName := some fileName }

/-- Empty cloud storage world. -/
def emptyCS : CloudStorage := ⟨[], [], [], []⟩

/-! ### Basic lemmas on the datastore operations -/

theorem chunkMatches_iff (d mid : String) (c : ChunkRec) :
    chunkMatches d mid c = true ↔ c.deviceId = d ∧ c.messageId = mid := by
  simp [chunkMatches]

theorem turdMatches_iff (d mid : String) (t : Turd) :
    turdMatches d mid t = true ↔ t.deviceId = d ∧ t.messageId = mid := by
  simp [turdMatches]

theorem gic_save (s : DState) (d mid v ity : String) (j N : Nat)
    (f ts : String) :
    getImageChunksFromDatastore
        (saveImageChunkToDatastore s d mid v ity j N f ts) d mid
      = getImageChunksFromDatastore s d mid ++ [⟨d, mid, v, ity, j, N, f, ts⟩] := by
  simp [getImageChunksFromDatastore, saveImageChunkToDatastore,
    List.filter_append, chunkMatches]

theorem gic_delete_self (s : DState) (d mid : String) :
    getImageChunksFromDatastore
        (deleteImageChunksFromDatastore s d mid) d mid = [] := by
  simp only [getImageChunksFromDatastore, deleteImageChunksFromDatastore]
  induction s.chunks with
  | nil => rfl
  | cons c l ih =>
    by_cases h : chunkMatches d mid c = true
    · simp [h, ih]
    · simp [h, ih]

theorem gic_delete_other (s : DState) (d mid d' mid' : String)
    (h : ¬(d' = d ∧ mid' = mid)) :
    getImageChunksFromDatastore
        (deleteImageChunksFromDatastore s d' mid') d mid
      = getImageChunksFromDatastore s d mid := by
  simp only [getImageChunksFromDatastore, deleteImageChunksFromDatastore]
  induction s.chunks with
  | nil => rfl
  | cons c l ih =>
    by_cases hm : chunkMatches d mid c = true
    · have hc := (chunkMatches_iff d mid c).1 hm
      have hne : chunkMatches d' mid' c = false := by
        rcases Bool.eq_false_or_eq_true (chunkMatches d' mid' c) with ht | hf
        · obtain ⟨h1, h2⟩ := (chunkMatches_iff d' mid' c).1 ht
          exact absurd ⟨h1.symm.trans hc.1, h2.symm.trans hc.2⟩ h
        · exact hf
      simp [hm, hne, ih]
    · by_cases hne : chunkMatches d' mid' c = true
      · simp [hm, hne, ih]
      · simp [hm, hne, ih]

theorem gic_deleteTurd (s : DState) (d mid d' mid' : String) :
    getImageChunksFromDatastore (deleteTurd s d' mid') d mid
      = getImageChunksFromDatastore s d mid := rfl

theorem gic_saveTurd (s : DState) (d mid d' mid' ts : String) :
    getImageChunksFromDatastore (saveTurd s d' mid' ts) d mid
      = getImageChunksFromDatastore s d mid := rfl

theorem turdsFor_deleteTurd_self (s : DState) (d mid : String) :
    turdsFor (deleteTurd s d mid) d mid = [] := by
  simp only [turdsFor, deleteTurd]
  induction s.turds with
  | nil => rfl
  | cons t l ih =>
    by_cases h : turdMatches d mid t = true
    · simp [h, ih]
    · simp [h, ih]

theorem turdsFor_deleteTurd_other (s : DState) (d mid d' mid' : String)
    (h : ¬(d' = d ∧ mid' = mid)) :
    turdsFor (deleteTurd s d' mid') d mid = turdsFor s d mid := by
  simp only [turdsFor, deleteTurd]
  induction s.turds with
  | nil => rfl
  | cons t l ih =>
    by_cases hm : turdMatches d mid t = true
    · have ht := (turdMatches_iff d mid t).1 hm
      have hne : turdMatches d' mid' t = false := by
        rcases Bool.eq_false_or_eq_true (turdMatches d' mid' t) with htt | hf
        · obtain ⟨h1, h2⟩ := (turdMatches_iff d' mid' t).1 htt
          exact absurd ⟨h1.symm.trans ht.1, h2.symm.trans ht.2⟩ h
        · exact hf
      simp [hm, hne, ih]
    · by_cases hne : turdMatches d' mid' t = true
      · simp [hm, hne, ih]
      · simp [hm, hne, ih]

theorem turdsFor_saveTurd_self (s : DState) (d mid ts : String) :
    turdsFor (saveTurd s d mid ts) d mid = turdsFor s d mid ++ [⟨d, mid, ts⟩] := by
  simp [turdsFor, saveTurd, List.filter_append, turdMatches]

theorem turdsFor_deleteChunks (s : DState) (d mid d' mid' : String) :
    turdsFor (deleteImageChunksFromDatastore s d' mid') d mid
      = turdsFor s d mid := rfl

theorem turdsFor_saveChunk (s : DState) (d mid d' mid' v ity : String)
    (j N : Nat) (f ts : String) :
    turdsFor (saveImageChunkToDatastore s d' mid' v ity j N f ts) d mid
      = turdsFor s d mid := rfl

/-- Generic preservation of a predicate along a left fold. -/
theorem foldl_preserve {α σ : Type} (step : σ → α → σ) (P : σ → Prop)
    (h : ∀ st a, P st → P (step st a)) :
    ∀ (l : List α) (st : σ), P st → P (l.foldl step st)
  | [], _, hst => hst
  | a :: l, st, hst => foldl_preserve step P h l (step st a) (h st a hst)

theorem reapTurds_gic_self (s : DState) (d mid : String) :
    getImageChunksFromDatastore (reapTurds s d mid) d mid
      = getImageChunksFromDatastore s d mid := by
  unfold reapTurds
  refine foldl_preserve _
    (fun st => getImageChunksFromDatastore st d mid
      = getImageChunksFromDatastore s d mid) ?_ (getTurds s d) s rfl
  intro st t hst
  by_cases hm : t.messageId == mid
  · simp only [hm, if_true]
    exact hst
  · have hne : ¬(d = d ∧ t.messageId = mid) := by
      intro hc
      simp [hc.2] at hm
    simp only [hm, if_false, Bool.false_eq_true]
    rw [gic_deleteTurd, gic_delete_other _ _ _ _ _ hne, hst]

theorem reapTurds_turdsFor_self (s : DState) (d mid : String) :
    turdsFor (reapTurds s d mid) d mid = turdsFor s d mid := by
  unfold reapTurds
  refine foldl_preserve _
    (fun st => turdsFor st d mid = turdsFor s d mid) ?_ (getTurds s d) s rfl
  intro st t hst
  by_cases hm : t.messageId == mid
  · simp only [hm, if_true]
    exact hst
  · have hne : ¬(d = d ∧ t.messageId = mid) := by
      intro hc
      simp [hc.2] at hm
    simp only [hm, if_false, Bool.false_eq_true]
    rw [turdsFor_deleteTurd_other _ _ _ _ _ hne, turdsFor_deleteChunks, hst]

theorem reapTurds_blobs (s : DState) (d mid : String) :
    (reapTurds s d mid).blobs = s.blobs := by
  unfold reapTurds
  refine foldl_preserve _ (fun st => st.blobs = s.blobs) ?_ (getTurds s d) s rfl
  intro st t hst
  by_cases hm : t.messageId == mid
  · simp only [hm, if_true]
    exact hst
  · simpa [hm, deleteTurd, deleteImageChunksFromDatastore] using hst

theorem reapTurds_images (s : DState) (d mid : String) :
    (reapTurds s d mid).images = s.images := by
  unfold reapTurds
  refine foldl_preserve _ (fun st => st.images = s.images) ?_ (getTurds s d) s rfl
  intro st t hst
  by_cases hm : t.messageId == mid
  · simp only [hm, if_true]
    exact hst
  · simpa [hm, deleteTurd, deleteImageChunksFromDatastore] using hst

theorem reapTurds_bqRows (s : DState) (d mid : String) :
    (reapTurds s d mid).bqRows = s.bqRows := by
  unfold reapTurds
  refine foldl_preserve _ (fun st => st.bqRows = s.bqRows) ?_ (getTurds s d) s rfl
  intro st t hst
  by_cases hm : t.messageId == mid
  · simp only [hm, if_true]
    exact hst
  · simpa [hm, deleteTurd, deleteImageChunksFromDatastore] using hst

/-! ### Lemmas on the completion scan -/

theorem markAux_some (recs : List ChunkRec) :
    ∀ (init : List Bool), (∀ r ∈ recs, r.chunkNum < init.length) →
    ∃ out, List.foldlM (fun l c => setListAt l c.chunkNum) init recs = some out ∧
      out.length = init.length ∧
      ∀ i, i < init.length →
        (out.getD i false = true ↔
          (init.getD i false = true ∨ ∃ r ∈ recs, r.chunkNum = i)) := by
  induction recs with
  | nil =>
    intro init _
    exact ⟨init, by simp, rfl, by simp⟩
  | cons c cs ih =>
    intro init hlt
    have hc : c.chunkNum < init.length := hlt c (by simp)
    have hset : setListAt init c.chunkNum = some (init.set c.chunkNum true) := by
      simp [setListAt, hc]
    obtain ⟨out, hout, hlen, hchar⟩ := ih (init.set c.chunkNum true)
      (by
        intro r hr
        rw [List.length_set]
        exact hlt r (by simp [hr]))
    refine ⟨out, ?_, by simpa [List.length_set] using hlen, ?_⟩
    · rw [List.foldlM_cons, hset]
      simpa using hout
    · intro i hi
      have hi' : i < (init.set c.chunkNum true).length := by
        simpa [List.length_set] using hi
      have hsetD : (init.set c.chunkNum true).getD i false
          = if c.chunkNum = i then true else init.getD i false := by
        rw [List.getD_eq_getElem?_getD, List.getElem?_set]
        by_cases he : c.chunkNum = i
        · simp [he, hc, he ▸ hc]
        · simp [he, List.getD_eq_getElem?_getD]
      rw [hchar i hi', hsetD]
      by_cases he : c.chunkNum = i
      · simp only [he, if_pos rfl]
        constructor
        · intro _
          exact Or.inr ⟨c, by simp, he⟩
        · intro _
          exact Or.inl rfl
      · simp only [if_neg he]
        constructor
        · rintro (h0 | ⟨r, hr, hri⟩)
          · exact Or.inl h0
          · exact Or.inr ⟨r, by simp [hr], hri⟩
        · rintro (h0 | ⟨r, hr, hri⟩)
          · exact Or.inl h0
          · rcases List.mem_cons.1 hr with rfl | hr'
            · exact absurd hri he
            · exact Or.inr ⟨r, hr', hri⟩

theorem all_iff_getD (l : List Bool) :
    l.all (fun b => b) = true ↔ ∀ i, i < l.length → l.getD i false = true := by
  induction l with
  | nil => simp
  | cons b t ih =>
    simp only [List.all_cons, Bool.and_eq_true, ih, List.length_cons]
    constructor
    · rintro ⟨hb, ht⟩ i hi
      cases i with
      | zero => simpa [List.getD_eq_getElem?_getD] using hb
      | succ n =>
        have := ht n (by omega)
        simpa [List.getD_eq_getElem?_getD] using this
    · intro h
      refine ⟨?_, ?_⟩
      · have := h 0 (by omega)
        simpa [List.getD_eq_getElem?_getD] using this
      · intro n hn
        have := h (n + 1) (by omega)
        simpa [List.getD_eq_getElem?_getD] using this

theorem markReceived_some (N : Nat) (recs : List ChunkRec)
    (h : ∀ r ∈ recs, r.chunkNum < N) :
    ∃ flags, markReceived N recs = some flags ∧ flags.length = N ∧
      (flags.all (fun b => b) = true ↔ ∀ i, i < N → ∃ r ∈ recs, r.chunkNum = i) := by
  obtain ⟨out, hout, hlen, hchar⟩ := markAux_some recs (List.replicate N false)
    (by simpa using h)
  have hrep : ∀ i, (List.replicate N false).getD i false = false := by
    intro i
    rw [List.getD_eq_getElem?_getD, List.getElem?_replicate]
    by_cases hi : i < N <;> simp [hi]
  have hlen' : out.length = N := by simpa using hlen
  refine ⟨out, hout, hlen', ?_⟩
  rw [all_iff_getD]
  constructor
  · intro hall i hiN
    rcases (hchar i (by simpa using hiN)).1 (hall i (by omega)) with h0 | hex
    · rw [hrep i] at h0
      exact absurd h0 (by simp)
    · exact hex
  · intro hforall i hi
    have hiN : i < N := by omega
    exact (hchar i (by simpa using hiN)).2 (Or.inr (hforall i hiN))

theorem markAux_none (recs : List ChunkRec) :
    ∀ (init : List Bool), (∃ r ∈ recs, init.length ≤ r.chunkNum) →
    List.foldlM (fun l c => setListAt l c.chunkNum) init recs = none := by
  induction recs with
  | nil =>
    intro init h
    simp at h
  | cons c cs ih =>
    intro init h
    by_cases hc : c.chunkNum < init.length
    · have hset : setListAt init c.chunkNum = some (init.set c.chunkNum true) := by
        simp [setListAt, hc]
      rw [List.foldlM_cons, hset]
      have : ∃ r ∈ cs, (init.set c.chunkNum true).length ≤ r.chunkNum := by
        obtain ⟨r, hr, hge⟩ := h
        rcases List.mem_cons.1 hr with rfl | hr'
        · omega
        · exact ⟨r, hr', by simpa [List.length_set] using hge⟩
      simpa using ih _ this
    · rw [List.foldlM_cons]
      have hset : setListAt init c.chunkNum = none := by
        simp [setListAt, hc]
      rw [hset]
      rfl

theorem markReceived_none (N : Nat) (recs : List ChunkRec)
    (h : ∃ r ∈ recs, N ≤ r.chunkNum) : markReceived N recs = none :=
  markAux_none recs (List.replicate N false) (by simpa using h)

/-! ### Step lemmas for `save_image` -/

theorem save_image_mk (outcome : Nat → Bool) (s : DState)
    (d v ity mid : String) (j N : Nat) (f ts bucket : String) :
    save_image outcome s (mkChunkMsg v ity mid j N f) d ts bucket
      = save_image_body outcome s d mid v ity j N f ts bucket := rfl

theorem string_length_ne_zero {s : String} (h : s ≠ "") : ¬s.length = 0 := by
  intro h0
  apply h
  cases s with
  | mk data =>
    cases data with
    | nil => rfl
    | cons c cs => simp [String.length] at h0

theorem bq_data_insert_chunks (o : Nat → Bool) (s : DState) (m : Msg)
    (d ts : String) : (bq_data_insert o s m d ts).1.chunks = s.chunks := by
  unfold bq_data_insert
  rcases makeBQRowList m d ts with ⟨rows, ok⟩
  cases ok <;> cases o 0 <;> simp

theorem bq_data_insert_turds (o : Nat → Bool) (s : DState) (m : Msg)
    (d ts : String) : (bq_data_insert o s m d ts).1.turds = s.turds := by
  unfold bq_data_insert
  rcases makeBQRowList m d ts with ⟨rows, ok⟩
  cases ok <;> cases o 0 <;> simp

theorem bq_data_insert_blobs (o : Nat → Bool) (s : DState) (m : Msg)
    (d ts : String) : (bq_data_insert o s m d ts).1.blobs = s.blobs := by
  unfold bq_data_insert
  rcases makeBQRowList m d ts with ⟨rows, ok⟩
  cases ok <;> cases o 0 <;> simp

/-- A `save_image` call on a non-empty chunk that does not finish the set:
the state change is exactly "reap stale turds, then store this chunk". -/
theorem save_image_step_waiting (outcome : Nat → Bool) (s : DState)
    (d mid v ity : String) (j N : Nat) (f ts bucket : String)
    (recs : List ChunkRec)
    (hrecs : getImageChunksFromDatastore s d mid = recs)
    (hf : f ≠ "")
    (hlt : ∀ r ∈ recs, r.chunkNum < N) (hj : j < N)
    (hmiss : ∃ i, i < N ∧ (∀ r ∈ recs, r.chunkNum ≠ i) ∧ j ≠ i) :
    save_image_body outcome s d mid v ity j N f ts bucket
      = (saveImageChunkToDatastore (reapTurds s d mid) d mid v ity j N f ts,
          .waiting) := by
  have hold : getImageChunksFromDatastore
      (saveImageChunkToDatastore (reapTurds s d mid) d mid v ity j N f ts) d mid
      = recs ++ [mkChunkRec d mid v ity j N f ts] := by
    rw [gic_save, reapTurds_gic_self, hrecs]
    rfl
  have hlt' : ∀ r ∈ recs ++ [mkChunkRec d mid v ity j N f ts], r.chunkNum < N := by
    rw [List.forall_mem_append]
    exact ⟨hlt, by simpa [mkChunkRec] using hj⟩
  obtain ⟨flags, hflags, _, hiff⟩ := markReceived_some N _ hlt'
  have hnotall : flags.all (fun b => b) = false := by
    rcases Bool.eq_false_or_eq_true (flags.all (fun b => b)) with hta | hfa
    · obtain ⟨i, hiN, hno, hji⟩ := hmiss
      obtain ⟨r, hr, hri⟩ := (hiff.1 hta) i hiN
      rcases List.mem_append.1 hr with hr' | hr'
      · exact absurd hri (hno r hr')
      · have : r = mkChunkRec d mid v ity j N f ts := by simpa using hr'
        exact absurd (by simpa [this, mkChunkRec] using hri) hji
    · exact hfa
  unfold save_image_body
  rw [if_neg (string_length_ne_zero hf)]
  simp only [hold, hflags, hnotall]
  rfl

/-- A `save_image` call on a non-empty chunk that completes the set:
the set and any turd for the id are dropped and the reassembled image is
published. -/
theorem save_image_step_complete (outcome : Nat → Bool) (s : DState)
    (d mid v ity : String) (j N : Nat) (f ts bucket : String)
    (recs : List ChunkRec) (bytes : List Nat)
    (hrecs : getImageChunksFromDatastore s d mid = recs)
    (hf : f ≠ "")
    (hlt : ∀ r ∈ recs ++ [mkChunkRec d mid v ity j N f ts], r.chunkNum < N)
    (hall : ∀ i, i < N →
      ∃ r ∈ recs ++ [mkChunkRec d mid v ity j N f ts], r.chunkNum = i)
    (hdec : b64decode (concatChunks
      (sortChunks (recs ++ [mkChunkRec d mid v ity j N f ts]))) = some bytes) :
    (save_image_body outcome s d mid v ity j N f ts bucket).2 = .completed ∧
    (save_image_body outcome s d mid v ity j N f ts bucket).1.blobs = s.blobs ++
      [⟨bucket, imageFileName d v ts ity, some bytes, "image/" ++ ity⟩] ∧
    getImageChunksFromDatastore
      (save_image_body outcome s d mid v ity j N f ts bucket).1 d mid = [] ∧
    turdsFor (save_image_body outcome s d mid v ity j N f ts bucket).1 d mid
      = [] := by
  have hold : getImageChunksFromDatastore
      (saveImageChunkToDatastore (reapTurds s d mid) d mid v ity j N f ts) d mid
      = recs ++ [mkChunkRec d mid v ity j N f ts] := by
    rw [gic_save, reapTurds_gic_self, hrecs]
    rfl
  obtain ⟨flags, hflags, _, hiff⟩ := markReceived_some N _ (hold ▸ hlt)
  have hallb : flags.all (fun b => b) = true := hiff.2 (by
    intro i hi
    obtain ⟨r, hr, hri⟩ := hall i hi
    exact ⟨r, hold ▸ hr, hri⟩)
  rw [hold] at hflags
  have hbody : save_image_body outcome s d mid v ity j N f ts bucket
      = (let s2 := saveImageChunkToDatastore (reapTurds s d mid) d mid v ity
          j N f ts
        let s4 := deleteTurd (deleteImageChunksFromDatastore s2 d mid) d mid
        let (s5, url) := saveFileInCloudStorage s4 v ity (some bytes) d bucket ts
        let s6 := saveImageURLtoDatastore s5 d url v ts
        ((bq_data_insert outcome s6 (urlMessageObj v url) d ts).1,
          .completed)) := by
    unfold save_image_body
    rw [if_neg (string_length_ne_zero hf)]
    simp only [hold, hflags, hallb, hdec, if_true]
  rw [hbody]
  refine ⟨rfl, ?_, ?_, ?_⟩
  · simp only [bq_data_insert_blobs, saveImageURLtoDatastore,
      saveFileInCloudStorage, deleteTurd, deleteImageChunksFromDatastore,
      saveImageChunkToDatastore]
    simp [reapTurds_blobs]
  · show getImageChunksFromDatastore
      ((bq_data_insert outcome _ _ d ts).1) d mid = []
    simp only [getImageChunksFromDatastore, bq_data_insert_chunks]
    have := gic_deleteTurd (deleteImageChunksFromDatastore
      (saveImageChunkToDatastore (reapTurds s d mid) d mid v ity j N f ts)
        d mid) d mid d mid
    rw [show (saveImageURLtoDatastore (saveFileInCloudStorage (deleteTurd
        (deleteImageChunksFromDatastore (saveImageChunkToDatastore
          (reapTurds s d mid) d mid v ity j N f ts) d mid) d mid) v ity
            (some bytes) d bucket ts).1 d _ v ts).chunks
      = (deleteImageChunksFromDatastore (saveImageChunkToDatastore
          (reapTurds s d mid) d mid v ity j N f ts) d mid).chunks from rfl]
    have h2 := gic_delete_self (saveImageChunkToDatastore (reapTurds s d mid)
      d mid v ity j N f ts) d mid
    simpa only [getImageChunksFromDatastore] using h2
  · show turdsFor ((bq_data_insert outcome _ _ d ts).1) d mid = []
    simp only [turdsFor, bq_data_insert_turds]
    rw [show (saveImageURLtoDatastore (saveFileInCloudStorage (deleteTurd
        (deleteImageChunksFromDatastore (saveImageChunkToDatastore
          (reapTurds s d mid) d mid v ity j N f ts) d mid) d mid) v ity
            (some bytes) d bucket ts).1 d _ v ts).turds
      = (deleteTurd (deleteImageChunksFromDatastore (saveImageChunkToDatastore
          (reapTurds s d mid) d mid v ity j N f ts) d mid) d mid).turds
        from rfl]
    have h2 := turdsFor_deleteTurd_self (deleteImageChunksFromDatastore
      (saveImageChunkToDatastore (reapTurds s d mid) d mid v ity j N f ts)
        d mid) d mid
    simpa only [turdsFor] using h2

/-! ### Sorting a complete chunk set -/

theorem concatChunks_map_aux (d mid v ity : String) (N : Nat)
    (frag : Nat → String) (ts : String) :
    ∀ (l : List Nat) (acc : String),
      List.foldl (fun acc c => acc ++ c.imageChunk) acc
        (l.map (fun i => mkChunkRec d mid v ity i N (frag i) ts))
      = List.foldl (fun acc i => acc ++ frag i) acc l
  | [], _ => rfl
  | i :: l, acc => concatChunks_map_aux d mid v ity N frag ts l (acc ++ frag i)

theorem concatChunks_map (d mid v ity : String) (N : Nat)
    (frag : Nat → String) (ts : String) (l : List Nat) :
    concatChunks (l.map (fun i => mkChunkRec d mid v ity i N (frag i) ts))
      = concatFrags frag l :=
  concatChunks_map_aux d mid v ity N frag ts l ""

/-- Sorting the records of a permutation of `range N` by `chunkNum` puts
them in ascending index order. -/
theorem sortChunks_perm_range (d mid v ity : String) (N : Nat)
    (frag : Nat → String) (ts : String) (perm : List Nat)
    (hperm : perm.Perm (List.range N)) :
    sortChunks (perm.map (fun i => mkChunkRec d mid v ity i N (frag i) ts))
      = (List.range N).map (fun i => mkChunkRec d mid v ity i N (frag i) ts) := by
  have hp1 : (sortChunks (perm.map (fun i => mkChunkRec d mid v ity i N (frag i) ts))).Perm
      ((List.range N).map (fun i => mkChunkRec d mid v ity i N (frag i) ts)) :=
    (List.perm_insertionSort _ _).trans
      (hperm.map (fun i => mkChunkRec d mid v ity i N (frag i) ts))
  have hs1 : List.Sorted (fun a b : ChunkRec => a.chunkNum ≤ b.chunkNum)
      (sortChunks (perm.map (fun i => mkChunkRec d mid v ity i N (frag i) ts))) :=
    List.sorted_insertionSort _ _
  have hmapnum : ∀ (l : List Nat),
      (l.map (fun i => mkChunkRec d mid v ity i N (frag i) ts)).map
        (fun c => c.chunkNum) = l := by
    intro l
    rw [List.map_map]
    exact List.map_id l
  have hnum_perm : ((sortChunks (perm.map
        (fun i => mkChunkRec d mid v ity i N (frag i) ts))).map
      (fun c => c.chunkNum)).Perm (List.range N) := by
    have := hp1.map (fun c : ChunkRec => c.chunkNum)
    rwa [hmapnum (List.range N)] at this
  have hnd : ((sortChunks (perm.map
      (fun i => mkChunkRec d mid v ity i N (frag i) ts))).map
        (fun c => c.chunkNum)).Nodup :=
    hnum_perm.nodup_iff.2 (List.nodup_range N)
  have hs1' : List.Sorted (fun a b : ChunkRec => a.chunkNum < b.chunkNum)
      (sortChunks (perm.map (fun i => mkChunkRec d mid v ity i N (frag i) ts))) := by
    have hne : List.Pairwise (fun a b : ChunkRec => a.chunkNum ≠ b.chunkNum)
        (sortChunks (perm.map (fun i => mkChunkRec d mid v ity i N (frag i) ts))) :=
      (List.pairwise_map).1 hnd
    exact (hs1.and hne).imp (fun h => Nat.lt_of_le_of_ne h.1 h.2)
  have hs2' : List.Sorted (fun a b : ChunkRec => a.chunkNum < b.chunkNum)
      ((List.range N).map (fun i => mkChunkRec d mid v ity i N (frag i) ts)) := by
    refine (List.pairwise_map).2 ?_
    exact List.pairwise_lt_range N
  exact List.eq_of_perm_of_sorted hp1 hs1' hs2'

/-! ### Order-independent reassembly (delivery induction) -/

theorem deliverAll_nil (o : Nat → Bool) (s : DState) (d ts b : String) :
    deliverAll o s [] d ts b = s := rfl

theorem deliverAll_cons (o : Nat → Bool) (s : DState) (m : Msg) (ms : List Msg)
    (d ts b : String) :
    deliverAll o s (m :: ms) d ts b
      = deliverAll o (save_image o s m d ts b).1 ms d ts b := rfl

theorem deliver_perm_aux (outcome : Nat → Bool)
    (d mid v ity ts bucket : String) (N : Nat) (frag : Nat → String)
    (bytes : List Nat)
    (hfrag : ∀ i, i < N → frag i ≠ "")
    (hdec : b64decode (concatFrags frag (List.range N)) = some bytes) :
    ∀ (rest prev : List Nat) (s : DState),
      (prev ++ rest).Perm (List.range N) → (prev ++ rest).Nodup → rest ≠ [] →
      getImageChunksFromDatastore s d mid
        = prev.map (fun i => mkChunkRec d mid v ity i N (frag i) ts) →
      (deliverAll outcome s
          (rest.map (fun i => mkChunkMsg v ity mid i N (frag i))) d ts
          bucket).blobs
        = s.blobs ++
          [⟨bucket, imageFileName d v ts ity, some bytes, "image/" ++ ity⟩] := by
  intro rest
  induction rest with
  | nil => intro prev s _ _ hne _; exact absurd rfl hne
  | cons j rest' ih =>
    intro prev s hperm hnodup _ hrecs
    have hjN : j < N := by
      have : j ∈ List.range N := hperm.mem_iff.1 (by simp)
      exact List.mem_range.1 this
    have hprevN : ∀ i ∈ prev, i < N := by
      intro i hi
      have : i ∈ List.range N := hperm.mem_iff.1 (by simp [hi])
      exact List.mem_range.1 this
    have hltprev : ∀ r ∈ prev.map (fun i => mkChunkRec d mid v ity i N (frag i) ts),
        r.chunkNum < N := by
      intro r hr
      obtain ⟨i, hi, rfl⟩ := List.mem_map.1 hr
      exact hprevN i hi
    cases rest' with
    | nil =>
      -- final chunk: the set completes
      rw [List.map_cons, List.map_nil, deliverAll_cons, deliverAll_nil,
        save_image_mk]
      have hltall : ∀ r ∈ prev.map (fun i => mkChunkRec d mid v ity i N (frag i) ts)
          ++ [mkChunkRec d mid v ity j N (frag j) ts], r.chunkNum < N := by
        rw [List.forall_mem_append]
        exact ⟨hltprev, by simpa [mkChunkRec] using hjN⟩
      have happ : prev.map (fun i => mkChunkRec d mid v ity i N (frag i) ts)
          ++ [mkChunkRec d mid v ity j N (frag j) ts]
          = (prev ++ [j]).map (fun i => mkChunkRec d mid v ity i N (frag i) ts) := by
        rw [List.map_append, List.map_cons, List.map_nil]
      have hall : ∀ i, i < N →
          ∃ r ∈ prev.map (fun i => mkChunkRec d mid v ity i N (frag i) ts)
            ++ [mkChunkRec d mid v ity j N (frag j) ts], r.chunkNum = i := by
        intro i hi
        have hmem : i ∈ prev ++ [j] := hperm.mem_iff.2 (List.mem_range.2 hi)
        refine ⟨mkChunkRec d mid v ity i N (frag i) ts, ?_, rfl⟩
        rw [happ]
        exact List.mem_map.2 ⟨i, hmem, rfl⟩
      have hdec' : b64decode (concatChunks (sortChunks
          (prev.map (fun i => mkChunkRec d mid v ity i N (frag i) ts)
            ++ [mkChunkRec d mid v ity j N (frag j) ts]))) = some bytes := by
        rw [happ, sortChunks_perm_range d mid v ity N frag ts (prev ++ [j]) hperm,
          concatChunks_map]
        exact hdec
      obtain ⟨_, hblobs, _, _⟩ := save_image_step_complete outcome s d mid v ity
        j N (frag j) ts bucket
        (prev.map (fun i => mkChunkRec d mid v ity i N (frag i) ts)) bytes
        hrecs (hfrag j hjN) hltall hall hdec'
      exact hblobs
    | cons j' rest'' =>
      -- a chunk is still missing (for instance the next one, j')
      have hj'N : j' < N := by
        have : j' ∈ List.range N := hperm.mem_iff.1 (by simp)
        exact List.mem_range.1 this
      have hnd2 : (j :: j' :: rest'').Nodup := (List.nodup_append.1 hnodup).2.1
      have hdisj : List.Disjoint prev (j :: j' :: rest'') :=
        (List.nodup_append.1 hnodup).2.2
      have hj'prev : j' ∉ prev := fun hc => hdisj hc (by simp)
      have hjj' : j ≠ j' := by
        intro hc
        have := (List.nodup_cons.1 hnd2).1
        exact this (by simp [hc])
      rw [List.map_cons, deliverAll_cons, save_image_mk]
      rw [save_image_step_waiting outcome s d mid v ity j N (frag j) ts bucket
        (prev.map (fun i => mkChunkRec d mid v ity i N (frag i) ts)) hrecs
        (hfrag j hjN) hltprev hjN
        ⟨j', hj'N, ?_, ?_⟩]
      · have hrecs' : getImageChunksFromDatastore
            (saveImageChunkToDatastore (reapTurds s d mid) d mid v ity j N
              (frag j) ts) d mid
            = (prev ++ [j]).map (fun i => mkChunkRec d mid v ity i N (frag i) ts) := by
          rw [gic_save, reapTurds_gic_self, hrecs, List.map_append,
            List.map_cons, List.map_nil]
          rfl
        have hblobs' : (saveImageChunkToDatastore (reapTurds s d mid) d mid v
            ity j N (frag j) ts).blobs = s.blobs := by
          simp [saveImageChunkToDatastore, reapTurds_blobs]
        have hperm' : ((prev ++ [j]) ++ (j' :: rest'')).Perm (List.range N) := by
          simpa [List.append_assoc] using hperm
        have hnodup' : ((prev ++ [j]) ++ (j' :: rest'')).Nodup := by
          simpa [List.append_assoc] using hnodup
        have := ih (prev ++ [j])
          (saveImageChunkToDatastore (reapTurds s d mid) d mid v ity j N
            (frag j) ts) hperm' hnodup' (by simp) hrecs'
        rw [this, hblobs']
      · intro r hr
        obtain ⟨i, hi, rfl⟩ := List.mem_map.1 hr
        show ¬(mkChunkRec d mid v ity i N (frag i) ts).chunkNum = j'
        intro hc
        have hc' : i = j' := by simpa [mkChunkRec] using hc
        exact hj'prev (hc' ▸ hi)
      · exact hjj'

/-- Pick out the blob list after the full permuted delivery. -/
theorem deliver_perm_blobs (outcome : Nat → Bool)
    (d mid v ity ts bucket : String) (N : Nat) (frag : Nat → String)
    (bytes : List Nat) (perm : List Nat) (s : DState)
    (hN : 0 < N)
    (hfrag : ∀ i, i < N → frag i ≠ "")
    (hperm : perm.Perm (List.range N))
    (hclean : getImageChunksFromDatastore s d mid = [])
    (hdec : b64decode (concatFrags frag (List.range N)) = some bytes) :
    (deliverAll outcome s
        (perm.map (fun i => mkChunkMsg v ity mid i N (frag i))) d ts
        bucket).blobs
      = s.blobs ++
        [⟨bucket, imageFileName d v ts ity, some bytes, "image/" ++ ity⟩] := by
  have hne : perm ≠ [] := by
    intro hc
    have := hperm.length_eq
    rw [hc] at this
    simp at this
    omega
  exact deliver_perm_aux outcome d mid v ity ts bucket N frag bytes hfrag hdec
    perm [] s (by simpa using hperm)
    (by simpa using hperm.nodup_iff.2 (List.nodup_range N)) hne
    (by simpa using hclean)


/-! ### Frame lemmas across one non-poison `save_image` call -/

theorem gic_save_other (s : DState) (d mid v ity : String) (j N : Nat)
    (f ts : String) (d₂ b : String) (h : ¬(d = d₂ ∧ mid = b)) :
    getImageChunksFromDatastore (saveImageChunkToDatastore s d mid v ity j N f ts) d₂ b
      = getImageChunksFromDatastore s d₂ b := by
  have hne : chunkMatches d₂ b (⟨d, mid, v, ity, j, N, f, ts⟩ : ChunkRec) = false := by
    rcases Bool.eq_false_or_eq_true (chunkMatches d₂ b ⟨d, mid, v, ity, j, N, f, ts⟩)
      with ht | hfo
    · obtain ⟨h1, h2⟩ := (chunkMatches_iff d₂ b _).1 ht
      exact absurd ⟨h1, h2⟩ h
    · exact hfo
  simp [getImageChunksFromDatastore, saveImageChunkToDatastore,
    List.filter_append, hne]

/-- After `reapTurds`, a stale id that had a turd has neither turds nor
chunks left. -/
theorem reapTurds_stale_empty (s : DState) (d mid b : String)
    (hb : b ≠ mid) (hturd : turdsFor s d b ≠ []) :
    turdsFor (reapTurds s d mid) d b = [] ∧
    getImageChunksFromDatastore (reapTurds s d mid) d b = [] := by
  have hex : ∃ t ∈ s.turds, turdMatches d b t = true := by
    rcases h : s.turds.filter (turdMatches d b) with _ | ⟨t, l⟩
    · exact absurd h hturd
    · have : t ∈ s.turds.filter (turdMatches d b) := by rw [h]; simp
      exact ⟨t, List.mem_of_mem_filter this, List.of_mem_filter this⟩
  obtain ⟨t, htmem, htm⟩ := hex
  obtain ⟨htd, htb⟩ := (turdMatches_iff d b t).1 htm
  have htg : t ∈ getTurds s d := by
    simp [getTurds, List.mem_filter, htmem, htd]
  obtain ⟨l1, l2, hsplit⟩ := List.append_of_mem htg
  have hstep : ∀ (st : DState) (t' : Turd),
      (turdsFor st d b = [] ∧ getImageChunksFromDatastore st d b = []) →
      (turdsFor (if t'.messageId == mid then st
          else deleteTurd (deleteImageChunksFromDatastore st d t'.messageId)
            d t'.messageId) d b = [] ∧
        getImageChunksFromDatastore (if t'.messageId == mid then st
          else deleteTurd (deleteImageChunksFromDatastore st d t'.messageId)
            d t'.messageId) d b = []) := by
    intro st t' hst
    by_cases hm : t'.messageId == mid
    · simpa [hm] using hst
    · simp only [hm, Bool.false_eq_true, if_false]
      by_cases hbb : t'.messageId = b
      · constructor
        · rw [hbb, turdsFor_deleteTurd_self]
        · rw [gic_deleteTurd, hbb]
          exact gic_delete_self _ _ _
      · constructor
        · rw [turdsFor_deleteTurd_other _ _ _ _ _ (by
            intro hc
            exact hbb hc.2), turdsFor_deleteChunks]
          exact hst.1
        · rw [gic_deleteTurd, gic_delete_other _ _ _ _ _ (by
            intro hc
            exact hbb hc.2)]
          exact hst.2
  unfold reapTurds
  rw [hsplit, List.foldl_append, List.foldl_cons]
  have hmb : (t.messageId == mid) = false := by
    rcases Bool.eq_false_or_eq_true (t.messageId == mid) with ht' | hfo
    · exact absurd (htb ▸ (by simpa using ht')) hb
    · exact hfo
  refine foldl_preserve _ (fun st => turdsFor st d b = [] ∧
    getImageChunksFromDatastore st d b = []) hstep l2 _ ?_
  simp only [hmb, Bool.false_eq_true, if_false]
  rw [htb]
  constructor
  · exact turdsFor_deleteTurd_self _ _ _
  · rw [gic_deleteTurd]
    exact gic_delete_self _ _ _

/-- One non-poison `save_image_body` call only ever touches the chunks and
turds of its own `(deviceId, messageId)`: any other id keeps exactly what
`reapTurds` left it. -/
theorem save_image_body_other_id (outcome : Nat → Bool) (s : DState)
    (d mid v ity : String) (j N : Nat) (f ts bucket : String) (b : String)
    (hf : f ≠ "") (hb : b ≠ mid) :
    turdsFor (save_image_body outcome s d mid v ity j N f ts bucket).1 d b
      = turdsFor (reapTurds s d mid) d b ∧
    getImageChunksFromDatastore
        (save_image_body outcome s d mid v ity j N f ts bucket).1 d b
      = getImageChunksFromDatastore (reapTurds s d mid) d b := by
  have hmidb : ¬(d = d ∧ mid = b) := by
    intro hc
    exact hb hc.2.symm
  unfold save_image_body
  rw [if_neg (string_length_ne_zero hf)]
  dsimp only
  cases hmr : markReceived N (getImageChunksFromDatastore
      (saveImageChunkToDatastore (reapTurds s d mid) d mid v ity j N f ts)
      d mid) with
  | none =>
    constructor
    · rfl
    · exact gic_save_other _ _ _ _ _ _ _ _ _ _ _ hmidb
  | some flags =>
    dsimp only
    by_cases hfa : (flags.all fun b => b) = true
    · rw [if_pos hfa]
      -- completion branch
      cases hdc : b64decode (concatChunks (sortChunks
          (getImageChunksFromDatastore (saveImageChunkToDatastore
            (reapTurds s d mid) d mid v ity j N f ts) d mid))) with
      | none =>
        constructor
        · show turdsFor (deleteTurd (deleteImageChunksFromDatastore _ d mid)
            d mid) d b = _
          rw [turdsFor_deleteTurd_other _ _ _ _ _ hmidb, turdsFor_deleteChunks]
          rfl
        · show getImageChunksFromDatastore (deleteTurd
            (deleteImageChunksFromDatastore _ d mid) d mid) d b = _
          rw [gic_deleteTurd, gic_delete_other _ _ _ _ _ hmidb]
          exact gic_save_other _ _ _ _ _ _ _ _ _ _ _ hmidb
      | some bytes =>
        constructor
        · show turdsFor (bq_data_insert _ _ _ _ _).1 d b = _
          simp only [turdsFor, bq_data_insert_turds]
          rw [show (saveImageURLtoDatastore (saveFileInCloudStorage (deleteTurd
              (deleteImageChunksFromDatastore (saveImageChunkToDatastore
                (reapTurds s d mid) d mid v ity j N f ts) d mid) d mid) v ity
                  _ d bucket ts).1 d _ v ts).turds
            = (deleteTurd (deleteImageChunksFromDatastore
                (saveImageChunkToDatastore (reapTurds s d mid) d mid v ity j N
                  f ts) d mid) d mid).turds from rfl]
          have := turdsFor_deleteTurd_other (deleteImageChunksFromDatastore
            (saveImageChunkToDatastore (reapTurds s d mid) d mid v ity j N f ts)
              d mid) d b d mid hmidb
          simpa only [turdsFor, turdsFor_deleteChunks] using this
        · show getImageChunksFromDatastore (bq_data_insert _ _ _ _ _).1 d b = _
          simp only [getImageChunksFromDatastore, bq_data_insert_chunks]
          rw [show (saveImageURLtoDatastore (saveFileInCloudStorage (deleteTurd
              (deleteImageChunksFromDatastore (saveImageChunkToDatastore
                (reapTurds s d mid) d mid v ity j N f ts) d mid) d mid) v ity
                  _ d bucket ts).1 d _ v ts).chunks
            = (deleteTurd (deleteImageChunksFromDatastore
                (saveImageChunkToDatastore (reapTurds s d mid) d mid v ity j N
                  f ts) d mid) d mid).chunks from rfl]
          have h1 := gic_delete_other (saveImageChunkToDatastore
            (reapTurds s d mid) d mid v ity j N f ts) d b d mid hmidb
          have h2 := gic_save_other (reapTurds s d mid) d mid v ity j N f ts
            d b hmidb
          simpa only [getImageChunksFromDatastore] using h1.trans h2
    · rw [if_neg hfa]
      -- waiting branch
      constructor
      · rfl
      · exact gic_save_other _ _ _ _ _ _ _ _ _ _ _ hmidb

/-! ### Claim theorems: the chunked-image reassembler -/

/-- C1: for every set of `N` chunk messages with distinct indices `0..N-1`
sharing a `(deviceId, messageId)` and declared `totalChunks = N`, delivered
to `save_image` in an arbitrary order (any permutation of `0..N-1`) into a
state holding no chunks for that id, the binary image written to storage
is the base64-decoding of the fragment payloads concatenated in ascending
chunk index order; the delivery order does not appear in the result. -/
theorem reassembly_order_independent (outcome : Nat → Bool)
    (d mid v ity ts bucket : String) (N : Nat) (frag : Nat → String)
    (bytes : List Nat) (perm : List Nat) (s : DState)
    (hN : 0 < N)
    (hfrag : ∀ i, i < N → frag i ≠ "")
    (hperm : perm.Perm (List.range N))
    (hclean : getImageChunksFromDatastore s d mid = [])
    (hdec : b64decode (concatFrags frag (List.range N)) = some bytes) :
    (deliverAll outcome s
        (perm.map (fun i => mkChunkMsg v ity mid i N (frag i))) d ts
        bucket).blobs
      = s.blobs ++
        [⟨bucket, imageFileName d v ts ity, some bytes, "image/" ++ ity⟩] :=
  deliver_perm_blobs outcome d mid v ity ts bucket N frag bytes perm s hN
    hfrag hperm hclean hdec

/-- C1 witness: the three-chunk image `A B C` delivered in order 2,0,1. -/
theorem reassembly_order_independent_witness :
    (0 < 3 ∧ (∀ i, i < 3 → fragW i ≠ "") ∧
      ([2, 0, 1] : List Nat).Perm (List.range 3) ∧
      getImageChunksFromDatastore emptyDState "D1" "M1" = [] ∧
      b64decode (concatFrags fragW (List.range 3)) = some [65, 66, 67]) ∧
    (deliverAll (fun _ => true) emptyDState
        (([2, 0, 1] : List Nat).map
          (fun i => mkChunkMsg "webcam" "png" "M1" i 3 (fragW i)))
        "D1" "TS" "BKT").blobs
      = emptyDState.blobs ++
        [⟨"BKT", imageFileName "D1" "webcam" "TS" "png", some [65, 66, 67],
          "image/" ++ "png"⟩] :=
  ⟨⟨by decide, by decide, by decide, by decide, by decide⟩,
    reassembly_order_independent (fun _ => true) "D1" "M1" "webcam" "png"
      "TS" "BKT" 3 fragW [65, 66, 67] [2, 0, 1] emptyDState (by decide)
      (by decide) (by decide) (by decide) (by decide)⟩

/-- C2 counterexample: delivering chunk 0 of 2 twice and then chunk 1
yields a different final blob than delivering each chunk once (the
duplicated fragment is concatenated twice), and after the double delivery
the store holds two records for the index instead of one overwritten
record. -/
theorem chunk_redelivery_not_idempotent :
    (deliverAll (fun _ => true) emptyDState
        [mkChunkMsg "w" "png" "M1" 0 2 "QUJD",
          mkChunkMsg "w" "png" "M1" 0 2 "QUJD",
          mkChunkMsg "w" "png" "M1" 1 2 "REVG"] "D" "TS" "B").blobs
      ≠ (deliverAll (fun _ => true) emptyDState
        [mkChunkMsg "w" "png" "M1" 0 2 "QUJD",
          mkChunkMsg "w" "png" "M1" 1 2 "REVG"] "D" "TS" "B").blobs
    ∧ (getImageChunksFromDatastore (deliverAll (fun _ => true) emptyDState
        [mkChunkMsg "w" "png" "M1" 0 2 "QUJD",
          mkChunkMsg "w" "png" "M1" 0 2 "QUJD"] "D" "TS" "B") "D" "M1").length
      = 2 := by
  decide

/-- C2 (amended): `saveImageChunkToDatastore` writes under a fresh
incomplete key, so re-delivering the same chunk before completion appends
a second identical record instead of overwriting: after two deliveries of
the same index into a clean id the store holds that record twice, and the
reassembled payload therefore contains each fragment once per delivery,
not exactly once. -/
theorem chunk_redelivery_appends_duplicate (outcome : Nat → Bool)
    (d mid v ity ts bucket : String) (j N : Nat) (f : String) (s : DState)
    (hf : f ≠ "") (hj : j < N) (hN : 2 ≤ N)
    (hclean : getImageChunksFromDatastore s d mid = []) :
    getImageChunksFromDatastore
        (deliverAll outcome s
          [mkChunkMsg v ity mid j N f, mkChunkMsg v ity mid j N f] d ts
          bucket) d mid
      = [mkChunkRec d mid v ity j N f ts, mkChunkRec d mid v ity j N f ts] := by
  have hi : ∃ i, i < N ∧ i ≠ j := by
    refine ⟨if j = 0 then 1 else 0, ?_, ?_⟩
    · by_cases h0 : j = 0 <;> simp [h0] <;> omega
    · by_cases h0 : j = 0 <;> simp [h0]
      omega
  obtain ⟨i, hiN, hij⟩ := hi
  rw [deliverAll_cons, save_image_mk,
    save_image_step_waiting outcome s d mid v ity j N f ts bucket
      [] hclean hf (by simp) hj ⟨i, hiN, by simp, fun hc => hij hc.symm⟩]
  dsimp only
  rw [deliverAll_cons, save_image_mk]
  have hrecs1 : getImageChunksFromDatastore
      (saveImageChunkToDatastore (reapTurds s d mid) d mid v ity j N f ts)
        d mid = [mkChunkRec d mid v ity j N f ts] := by
    rw [gic_save, reapTurds_gic_self, hclean]
    rfl
  rw [save_image_step_waiting outcome _ d mid v ity j N f ts bucket
    [mkChunkRec d mid v ity j N f ts] hrecs1 hf
    (by
      intro r hr
      have : r = mkChunkRec d mid v ity j N f ts := by simpa using hr
      simpa [this, mkChunkRec] using hj) hj
    ⟨i, hiN, by
      intro r hr
      have : r = mkChunkRec d mid v ity j N f ts := by simpa using hr
      simpa [this, mkChunkRec] using fun hc => hij hc.symm,
      fun hc => hij hc.symm⟩]
  dsimp only
  rw [deliverAll_nil, gic_save, reapTurds_gic_self, hrecs1]
  rfl

/-- C2 amended witness: a concrete double delivery leaving two copies. -/
theorem chunk_redelivery_appends_duplicate_witness :
    (("QUJD" : String) ≠ "" ∧ 0 < 2 ∧ 2 ≤ 2 ∧
      getImageChunksFromDatastore emptyDState "D" "M1" = []) ∧
    getImageChunksFromDatastore
        (deliverAll (fun _ => true) emptyDState
          [mkChunkMsg "w" "png" "M1" 0 2 "QUJD",
            mkChunkMsg "w" "png" "M1" 0 2 "QUJD"] "D" "TS" "B") "D" "M1"
      = [mkChunkRec "D" "M1" "w" "png" 0 2 "QUJD" "TS",
          mkChunkRec "D" "M1" "w" "png" 0 2 "QUJD" "TS"] :=
  ⟨⟨by decide, by decide, by decide, by decide⟩,
    chunk_redelivery_appends_duplicate (fun _ => true) "D" "M1" "w" "png"
      "TS" "B" 0 2 "QUJD" emptyDState (by decide) (by decide) (by decide)
      (by decide)⟩

/-- C4: an empty-fragment chunk for an id with no pre-existing turd (in
particular, an in-progress id) makes `save_image` delete every stored
chunk record of that `(deviceId, messageId)`, write one turd marker for
it, and return without storing the poison chunk: afterwards the id has
zero chunk records and exactly one turd. -/
theorem poison_chunk_abandons (outcome : Nat → Bool) (s : DState)
    (d mid v ity ts bucket : String) (j N : Nat)
    (hturd : turdsFor s d mid = []) :
    getImageChunksFromDatastore
        (save_image outcome s (mkChunkMsg v ity mid j N "") d ts bucket).1
        d mid = [] ∧
    turdsFor (save_image outcome s (mkChunkMsg v ity mid j N "") d ts
        bucket).1 d mid = [⟨d, mid, ts⟩] ∧
    (save_image outcome s (mkChunkMsg v ity mid j N "") d ts bucket).2
      = .poisonAbandoned := by
  have hbody : save_image_body outcome s d mid v ity j N "" ts bucket
      = (saveTurd (deleteImageChunksFromDatastore s d mid) d mid ts,
          .poisonAbandoned) := by
    unfold save_image_body
    rw [if_pos (show ("" : String).length = 0 from rfl)]
  rw [save_image_mk, hbody]
  refine ⟨?_, ?_, rfl⟩
  · show getImageChunksFromDatastore
      (saveTurd (deleteImageChunksFromDatastore s d mid) d mid ts) d mid = []
    rw [gic_saveTurd]
    exact gic_delete_self s d mid
  · show turdsFor
      (saveTurd (deleteImageChunksFromDatastore s d mid) d mid ts) d mid = _
    rw [turdsFor_saveTurd_self, turdsFor_deleteChunks, hturd]
    rfl

/-- C4 witness: a poison chunk into a state holding two chunks of the id. -/
theorem poison_chunk_abandons_witness :
    (turdsFor ⟨[⟨"D", "M1", "w", "png", 0, 3, "QQ==", "T0"⟩,
        ⟨"D", "M1", "w", "png", 1, 3, "Qg==", "T0"⟩], [], [], [], []⟩
      "D" "M1" = []) ∧
    getImageChunksFromDatastore
        (save_image (fun _ => true)
          ⟨[⟨"D", "M1", "w", "png", 0, 3, "QQ==", "T0"⟩,
            ⟨"D", "M1", "w", "png", 1, 3, "Qg==", "T0"⟩], [], [], [], []⟩
          (mkChunkMsg "w" "png" "M1" 2 3 "") "D" "TS" "B").1 "D" "M1" = [] ∧
    turdsFor (save_image (fun _ => true)
          ⟨[⟨"D", "M1", "w", "png", 0, 3, "QQ==", "T0"⟩,
            ⟨"D", "M1", "w", "png", 1, 3, "Qg==", "T0"⟩], [], [], [], []⟩
          (mkChunkMsg "w" "png" "M1" 2 3 "") "D" "TS" "B").1 "D" "M1"
      = [⟨"D", "M1", "TS"⟩] ∧
    (save_image (fun _ => true)
          ⟨[⟨"D", "M1", "w", "png", 0, 3, "QQ==", "T0"⟩,
            ⟨"D", "M1", "w", "png", 1, 3, "Qg==", "T0"⟩], [], [], [], []⟩
          (mkChunkMsg "w" "png" "M1" 2 3 "") "D" "TS" "B").2
      = .poisonAbandoned :=
  ⟨by decide,
    poison_chunk_abandons (fun _ => true)
      ⟨[⟨"D", "M1", "w", "png", 0, 3, "QQ==", "T0"⟩,
        ⟨"D", "M1", "w", "png", 1, 3, "Qg==", "T0"⟩], [], [], [], []⟩
      "D" "M1" "w" "png" "TS" "B" 2 3 (by decide)⟩

/-- C5: while `save_image` handles a non-empty chunk, every turd of the
same device with a different `messageId` is deleted together with that
stale id's chunk set, and the reaping step leaves a turd carrying the
current `messageId` untouched. -/
theorem stale_turds_reaped (outcome : Nat → Bool) (s : DState)
    (d mid v ity : String) (j N : Nat) (f ts bucket : String)
    (hf : f ≠ "") :
    (∀ b, b ≠ mid → turdsFor s d b ≠ [] →
      turdsFor (save_image outcome s (mkChunkMsg v ity mid j N f) d ts
          bucket).1 d b = [] ∧
      getImageChunksFromDatastore
        (save_image outcome s (mkChunkMsg v ity mid j N f) d ts bucket).1
        d b = []) ∧
    turdsFor (reapTurds s d mid) d mid = turdsFor s d mid := by
  constructor
  · intro b hb hturd
    rw [save_image_mk]
    obtain ⟨ht, hc⟩ := reapTurds_stale_empty s d mid b hb hturd
    obtain ⟨ht', hc'⟩ := save_image_body_other_id outcome s d mid v ity j N
      f ts bucket b hf hb
    exact ⟨ht'.trans ht, hc'.trans hc⟩
  · exact reapTurds_turdsFor_self s d mid

/-- C5 witness: a stale turd (id `OLD`) and its chunk are reaped by a new
chunk of id `M1`, while a turd for `M1` itself survives the reap step. -/
theorem stale_turds_reaped_witness :
    (("QQ==" : String) ≠ "" ∧ ("OLD" : String) ≠ "M1" ∧
      turdsFor ⟨[⟨"D", "OLD", "w", "png", 0, 3, "eA==", "T0"⟩],
        [⟨"D", "OLD", "T0"⟩, ⟨"D", "M1", "T1"⟩], [], [], []⟩ "D" "OLD" ≠ []) ∧
    (turdsFor (save_image (fun _ => true)
        ⟨[⟨"D", "OLD", "w", "png", 0, 3, "eA==", "T0"⟩],
          [⟨"D", "OLD", "T0"⟩, ⟨"D", "M1", "T1"⟩], [], [], []⟩
        (mkChunkMsg "w" "png" "M1" 0 3 "QQ==") "D" "TS" "B").1 "D" "OLD" = [] ∧
      getImageChunksFromDatastore (save_image (fun _ => true)
        ⟨[⟨"D", "OLD", "w", "png", 0, 3, "eA==", "T0"⟩],
          [⟨"D", "OLD", "T0"⟩, ⟨"D", "M1", "T1"⟩], [], [], []⟩
        (mkChunkMsg "w" "png" "M1" 0 3 "QQ==") "D" "TS" "B").1 "D" "OLD" = []) ∧
    turdsFor (reapTurds ⟨[⟨"D", "OLD", "w", "png", 0, 3, "eA==", "T0"⟩],
        [⟨"D", "OLD", "T0"⟩, ⟨"D", "M1", "T1"⟩], [], [], []⟩ "D" "M1")
        "D" "M1"
      = turdsFor ⟨[⟨"D", "OLD", "w", "png", 0, 3, "eA==", "T0"⟩],
        [⟨"D", "OLD", "T0"⟩, ⟨"D", "M1", "T1"⟩], [], [], []⟩ "D" "M1" :=
  ⟨⟨by decide, by decide, by decide⟩,
    (stale_turds_reaped (fun _ => true)
      ⟨[⟨"D", "OLD", "w", "png", 0, 3, "eA==", "T0"⟩],
        [⟨"D", "OLD", "T0"⟩, ⟨"D", "M1", "T1"⟩], [], [], []⟩
      "D" "M1" "w" "png" 0 3 "QQ==" "TS" "B" (by decide)).1 "OLD"
      (by decide) (by decide),
    (stale_turds_reaped (fun _ => true)
      ⟨[⟨"D", "OLD", "w", "png", 0, 3, "eA==", "T0"⟩],
        [⟨"D", "OLD", "T0"⟩, ⟨"D", "M1", "T1"⟩], [], [], []⟩
      "D" "M1" "w" "png" 0 3 "QQ==" "TS" "B" (by decide)).2⟩

/-- C8 counterexample: a chunk with index `5` and declared total `2` is
stored, but the completion scan then performs an out-of-range list write
(`listOfChunksReceived[5]` on a 2-element list), raising the IndexError
the outer handler catches — the scan is not well-defined there. -/
theorem oversized_index_breaks_scan :
    (save_image (fun _ => true) emptyDState
        (mkChunkMsg "w" "png" "M1" 5 2 "QUJD") "D" "TS" "B").2
      = .indexError
    ∧ getImageChunksFromDatastore (save_image (fun _ => true) emptyDState
        (mkChunkMsg "w" "png" "M1" 5 2 "QUJD") "D" "TS" "B").1 "D" "M1"
      = [mkChunkRec "D" "M1" "w" "png" 5 2 "QUJD" "TS"] := by
  decide

/-- C8 (amended): a non-empty chunk with index ≥ its declared
`totalChunks` is accepted and stored as-is (no bounds check at store
time), but the subsequent completion scan always hits an out-of-range
list write whose IndexError aborts the call at the outer handler; the
oversized record stays stored. -/
theorem oversized_index_stored_then_scan_raises (outcome : Nat → Bool)
    (s : DState) (d mid v ity : String) (j N : Nat) (f ts bucket : String)
    (hf : f ≠ "") (hj : N ≤ j) :
    (save_image outcome s (mkChunkMsg v ity mid j N f) d ts bucket).2
        = .indexError ∧
    getImageChunksFromDatastore
        (save_image outcome s (mkChunkMsg v ity mid j N f) d ts bucket).1
        d mid
      = getImageChunksFromDatastore s d mid
          ++ [mkChunkRec d mid v ity j N f ts] := by
  have hold : getImageChunksFromDatastore
      (saveImageChunkToDatastore (reapTurds s d mid) d mid v ity j N f ts)
        d mid
      = getImageChunksFromDatastore s d mid
          ++ [mkChunkRec d mid v ity j N f ts] := by
    rw [gic_save, reapTurds_gic_self]
    rfl
  have hmr : markReceived N (getImageChunksFromDatastore
      (saveImageChunkToDatastore (reapTurds s d mid) d mid v ity j N f ts)
        d mid) = none := by
    apply markReceived_none
    exact ⟨mkChunkRec d mid v ity j N f ts, by simp [hold], by
      simpa [mkChunkRec] using hj⟩
  have hbody : save_image_body outcome s d mid v ity j N f ts bucket
      = (saveImageChunkToDatastore (reapTurds s d mid) d mid v ity j N f ts,
          .indexError) := by
    unfold save_image_body
    rw [if_neg (string_length_ne_zero hf)]
    dsimp only
    rw [hmr]
  rw [save_image_mk, hbody]
  exact ⟨rfl, hold⟩

/-- C8 amended witness. -/
theorem oversized_index_stored_then_scan_raises_witness :
    (("QUJD" : String) ≠ "" ∧ 2 ≤ 5) ∧
    (save_image (fun _ => true) emptyDState
        (mkChunkMsg "w" "png" "M1" 5 2 "QUJD") "D" "TS" "B").2
      = .indexError ∧
    getImageChunksFromDatastore
        (save_image (fun _ => true) emptyDState
          (mkChunkMsg "w" "png" "M1" 5 2 "QUJD") "D" "TS" "B").1 "D" "M1"
      = getImageChunksFromDatastore emptyDState "D" "M1"
          ++ [mkChunkRec "D" "M1" "w" "png" 5 2 "QUJD" "TS"] :=
  ⟨⟨by decide, by decide⟩,
    oversized_index_stored_then_scan_raises (fun _ => true) emptyDState
      "D" "M1" "w" "png" 5 2 "QUJD" "TS" "B" (by decide) (by decide)⟩

/-! ### Lemmas on the history cache -/

theorem take_append_take {α : Type} (n : Nat) (a b : List α) :
    List.take n (a ++ List.take n b) = List.take n (a ++ b) := by
  rw [List.take_append_eq_append_take, List.take_append_eq_append_take,
    List.take_take, Nat.min_eq_left (Nat.sub_le n a.length)]

theorem trimTail_eq_take (l : List HEntry) :
    trimTail l = l.take DS_env_vars_MAX_size := by
  have key : ∀ (n : Nat) (l : List HEntry), l.length = n →
      trimTail l = l.take DS_env_vars_MAX_size := by
    intro n
    induction n using Nat.strong_induction_on with
    | _ n ih =>
      intro l hn
      by_cases h : l.length > DS_env_vars_MAX_size
      · have hlt : l.dropLast.length < n := by
          rw [List.length_dropLast, ← hn]
          simp only [DS_env_vars_MAX_size] at h
          omega
        rw [trimTail, dif_pos h, ih l.dropLast.length hlt l.dropLast rfl,
          List.dropLast_eq_take, List.take_take]
        have hmin : DS_env_vars_MAX_size ⊓ (l.length - 1)
            = DS_env_vars_MAX_size := by
          simp only [DS_env_vars_MAX_size] at h ⊢
          omega
        rw [hmin]
      · rw [trimTail, dif_neg h, List.take_of_length_le (Nat.le_of_not_lt h)]
  exact key l.length l rfl

theorem trimTail_length_le (l : List HEntry) :
    (trimTail l).length ≤ DS_env_vars_MAX_size := by
  rw [trimTail_eq_take, List.length_take]
  exact Nat.min_le_left _ _

theorem hist_fold_take (es : List HEntry) :
    ∀ init : List HEntry, init.length ≤ DS_env_vars_MAX_size →
    es.foldl (fun l e => trimTail (e :: l)) init
      = (es.reverse ++ init).take DS_env_vars_MAX_size := by
  induction es with
  | nil =>
    intro init hinit
    simp [List.take_of_length_le hinit]
  | cons e es ih =>
    intro init hinit
    rw [List.foldl_cons, ih (trimTail (e :: init)) (trimTail_length_le _),
      trimTail_eq_take, take_append_take, List.reverse_cons,
      List.append_assoc]
    rfl

theorem save_data_step (strictV innerEval : String → Option String)
    (strictN : String → Option (Option String)) (dd : DeviceDataStore)
    (deviceId ts varName payload : String) (e : HEntry)
    (he : histEntryOf strictV innerEval strictN ts payload = some e) :
    histFor (save_data_to_Device strictV innerEval strictN dd
        (mkEnvMsg varName payload) deviceId ts) deviceId varName
      = trimTail (e :: histFor dd deviceId varName) ∧
    ∀ d' v', ¬(d' = deviceId ∧ v' = varName) →
      histFor (save_data_to_Device strictV innerEval strictN dd
          (mkEnvMsg varName payload) deviceId ts) d' v'
        = histFor dd d' v' := by
  have hsv : ∃ v, string_to_value strictV innerEval payload = .ok v ∧
      e = ⟨ts, pyStrOpt (string_to_name strictN payload), v⟩ := by
    unfold histEntryOf at he
    cases hs : string_to_value strictV innerEval payload with
    | raise => rw [hs] at he; exact absurd he (by simp)
    | ok v =>
      rw [hs] at he
      exact ⟨v, rfl, by simpa using he.symm⟩
  obtain ⟨v, hv, hev⟩ := hsv
  have hupd : save_data_to_Device strictV innerEval strictN dd
      (mkEnvMsg varName payload) deviceId ts
      = fun d =>
          if d = deviceId then
            some (fun vn =>
              if vn = varName then
                trimTail (e :: ((dd deviceId).getD (fun _ => [])) varName)
              else ((dd deviceId).getD (fun _ => [])) vn)
          else dd d := by
    unfold save_data_to_Device
    rw [if_neg (by simp [mkEnvMsg, validateMessageType])]
    show (match (mkEnvMsg varName payload).var,
        (mkEnvMsg varName payload).values with
      | some varName, some vals => _
      | _, _ => dd) = _
    dsimp only [mkEnvMsg]
    rw [hv]
    dsimp only
    rw [hev]
  have hent : ∀ vn, ((dd deviceId).getD (fun _ => [])) vn
      = histFor dd deviceId vn := by
    intro vn
    unfold histFor
    cases dd deviceId <;> rfl
  constructor
  · rw [hupd]
    unfold histFor
    dsimp only
    rw [if_pos (rfl : deviceId = deviceId)]
    dsimp only
    rw [if_pos (rfl : varName = varName), hent]
    rfl
  · intro d' v' hne
    rw [hupd]
    unfold histFor
    dsimp only
    by_cases hd : d' = deviceId
    · subst hd
      rw [if_pos (rfl : d' = d')]
      dsimp only
      have hvn : ¬v' = varName := fun hc => hne ⟨rfl, hc⟩
      rw [if_neg hvn, hent]
      unfold histFor
      rfl
    · rw [if_neg hd]

theorem save_data_bounded (strictV innerEval : String → Option String)
    (strictN : String → Option (Option String)) (dd : DeviceDataStore)
    (m : Msg) (deviceId ts : String)
    (hinv : ∀ d' v', (histFor dd d' v').length ≤ DS_env_vars_MAX_size) :
    ∀ d' v', (histFor (save_data_to_Device strictV innerEval strictN dd m
        deviceId ts) d' v').length ≤ DS_env_vars_MAX_size := by
  intro d' v'
  unfold save_data_to_Device
  split
  · exact hinv d' v'
  · split
    · split
      · exact hinv d' v'
      · dsimp only
        unfold histFor
        dsimp only
        by_cases hd : d' = deviceId
        · subst hd
          rw [if_pos (rfl : d' = d')]
          dsimp only
          split
          · exact trimTail_length_le _
          · have := hinv d' v'
            unfold histFor at this
            cases hdd : dd d' with
            | none => simp
            | some ent => rw [hdd] at this; simpa using this
        · rw [if_neg hd]
          have := hinv d' v'
          unfold histFor at this
          exact this
    · exact hinv d' v'

theorem runHistoryUpdates_histFor (strictV innerEval : String → Option String)
    (strictN : String → Option (Option String)) (deviceId varName : String)
    (ent : String × String → HEntry) :
    ∀ (pairs : List (String × String)) (dd : DeviceDataStore),
      (∀ pr ∈ pairs, histEntryOf strictV innerEval strictN pr.1 pr.2
        = some (ent pr)) →
      histFor (runHistoryUpdates strictV innerEval strictN dd deviceId
          varName pairs) deviceId varName
        = (pairs.map ent).foldl (fun l e => trimTail (e :: l))
            (histFor dd deviceId varName) := by
  intro pairs
  induction pairs with
  | nil => intro dd _; rfl
  | cons pr pairs ih =>
    intro dd hent
    have hstep := save_data_step strictV innerEval strictN dd deviceId pr.1
      varName pr.2 (ent pr) (hent pr (by simp))
    show histFor (runHistoryUpdates strictV innerEval strictN
        (save_data_to_Device strictV innerEval strictN dd
          (mkEnvMsg varName pr.2) deviceId pr.1) deviceId varName pairs)
        deviceId varName = _
    rw [ih _ (fun pr' hpr' => hent pr' (by simp [hpr'])), hstep.1]
    rfl

/-! ### Claim theorems: history cache and value extraction -/

/-- C3: after any completed `save_data_to_Device` update of a store whose
history lists all respect the cap, every `(deviceId, varName)` list still
has at most `DS_env_vars_MAX_size = 100` entries; and running 150
sequential successfully-extracted insertions for one `(deviceId, varName)`
leaves exactly 100 entries, newest first — the last 100 insertions in
reverse insertion order. -/
theorem history_cap_and_last_100 :
    (∀ (strictV innerEval : String → Option String)
        (strictN : String → Option (Option String)) (dd : DeviceDataStore)
        (m : Msg) (deviceId ts : String),
      (∀ d' v', (histFor dd d' v').length ≤ DS_env_vars_MAX_size) →
      ∀ d' v', (histFor (save_data_to_Device strictV innerEval strictN dd m
          deviceId ts) d' v').length ≤ DS_env_vars_MAX_size) ∧
    (∀ (strictV innerEval : String → Option String)
        (strictN : String → Option (Option String)) (dd : DeviceDataStore)
        (deviceId varName : String) (pairs : List (String × String))
        (ent : String × String → HEntry),
      pairs.length = 150 →
      (histFor dd deviceId varName).length ≤ DS_env_vars_MAX_size →
      (∀ pr ∈ pairs, histEntryOf strictV innerEval strictN pr.1 pr.2
        = some (ent pr)) →
      histFor (runHistoryUpdates strictV innerEval strictN dd deviceId
          varName pairs) deviceId varName
        = ((pairs.map ent).drop 50).reverse ∧
      (histFor (runHistoryUpdates strictV innerEval strictN dd deviceId
          varName pairs) deviceId varName).length = 100) := by
  constructor
  · exact save_data_bounded
  · intro sV iE sN dd deviceId varName pairs ent hlen hinit hok
    have hrun := runHistoryUpdates_histFor sV iE sN deviceId varName ent
      pairs dd hok
    have hfold := hist_fold_take (pairs.map ent)
      (histFor dd deviceId varName) hinit
    have hElen : (pairs.map ent).length = 150 := by
      rw [List.length_map, hlen]
    have hmain : ((pairs.map ent).reverse
          ++ histFor dd deviceId varName).take DS_env_vars_MAX_size
        = ((pairs.map ent).drop 50).reverse := by
      rw [List.take_append_eq_append_take]
      have h2 : DS_env_vars_MAX_size - (pairs.map ent).reverse.length = 0 := by
        rw [List.length_reverse, hElen]
        rfl
      rw [h2, List.take_zero, List.append_nil, List.take_reverse, hElen]
      have h3 : 150 - DS_env_vars_MAX_size = 50 := rfl
      rw [h3]
    rw [hrun, hfold, hmain]
    refine ⟨rfl, ?_⟩
    rw [List.length_reverse, List.length_drop, hElen]

/-- C3 witness: one bounded update on the empty store, and 150 concrete
insertions for `("D", "v")` leaving the last 100 reversed. -/
theorem history_cap_and_last_100_witness :
    (∀ d' v', (histFor (save_data_to_Device (fun _ => some "val")
        (fun _ => none) (fun _ => some (some "nm")) emptyDD
        (mkEnvMsg "v" "p") "D" "TS") d' v').length ≤ DS_env_vars_MAX_size) ∧
    histFor (runHistoryUpdates (fun _ => some "val") (fun _ => none)
        (fun _ => some (some "nm")) emptyDD "D" "v"
        ((List.range 150).map (fun i => (toString i, "p")))) "D" "v"
      = (((((List.range 150).map (fun i => (toString i, "p"))).map
          (fun pr => (⟨pr.1, "nm", "val"⟩ : HEntry)))).drop 50).reverse ∧
    (histFor (runHistoryUpdates (fun _ => some "val") (fun _ => none)
        (fun _ => some (some "nm")) emptyDD "D" "v"
        ((List.range 150).map (fun i => (toString i, "p")))) "D" "v").length
      = 100 :=
  ⟨history_cap_and_last_100.1 (fun _ => some "val") (fun _ => none)
      (fun _ => some (some "nm")) emptyDD (mkEnvMsg "v" "p") "D" "TS"
      (fun d' v' => by simp [histFor, emptyDD]),
    (history_cap_and_last_100.2 (fun _ => some "val") (fun _ => none)
      (fun _ => some (some "nm")) emptyDD "D" "v"
      ((List.range 150).map (fun i => (toString i, "p")))
      (fun pr => (⟨pr.1, "nm", "val"⟩ : HEntry))
      (by simp) (by simp [histFor, emptyDD]) (fun pr _ => rfl)).1,
    (history_cap_and_last_100.2 (fun _ => some "val") (fun _ => none)
      (fun _ => some (some "nm")) emptyDD "D" "v"
      ((List.range 150).map (fun i => (toString i, "p")))
      (fun pr => (⟨pr.1, "nm", "val"⟩ : HEntry))
      (by simp) (by simp [histFor, emptyDD]) (fun pr _ => rfl)).2⟩

/-- C10: when the strict structured parse of the values payload fails and
the fallback scan finds no `'value':'` tag or no `\x7d]\x7d` terminator,
`_string_to_value` returns the input string unchanged, and
`save_data_to_Device` stores the entire raw payload text as the newest
history entry's value. -/
theorem raw_payload_stored_on_scan_miss
    (strictV innerEval : String → Option String)
    (strictN : String → Option (Option String)) (dd : DeviceDataStore)
    (deviceId varName ts payload : String)
    (hstrict : strictV payload = none)
    (hmiss : pyFind payload "'value':'" = none ∨
      pyFind payload "\x7d]\x7d" = none) :
    string_to_value strictV innerEval payload = .ok payload ∧
    (histFor (save_data_to_Device strictV innerEval strictN dd
        (mkEnvMsg varName payload) deviceId ts) deviceId varName).head?
      = some ⟨ts, pyStrOpt (string_to_name strictN payload), payload⟩ := by
  have hsv : string_to_value strictV innerEval payload = .ok payload := by
    unfold string_to_value
    rw [hstrict]
    cases h1 : pyFind payload "'value':'" with
    | none => rfl
    | some i =>
      have hm2 : pyFind payload "\x7d]\x7d" = none := by
        rcases hmiss with hm | hm
        · rw [h1] at hm
          exact absurd hm (by simp)
        · exact hm
      rw [hm2]
  refine ⟨hsv, ?_⟩
  have he : histEntryOf strictV innerEval strictN ts payload
      = some ⟨ts, pyStrOpt (string_to_name strictN payload), payload⟩ := by
    unfold histEntryOf
    rw [hsv]
  obtain ⟨h1, _⟩ := save_data_step strictV innerEval strictN dd deviceId ts
    varName payload _ he
  rw [h1, trimTail_eq_take, List.head?_take,
    if_neg (by decide : ¬DS_env_vars_MAX_size = 0)]
  rfl

/-- C10 witness: the payload `"garbage"` has neither tag; it is stored
verbatim as the value of the newest entry. -/
theorem raw_payload_stored_on_scan_miss_witness :
    ((fun _ : String => (none : Option String)) "garbage" = none ∧
      pyFind "garbage" "'value':'" = none) ∧
    string_to_value (fun _ => none) (fun _ => none) "garbage"
      = .ok "garbage" ∧
    (histFor (save_data_to_Device (fun _ => none) (fun _ => none)
        (fun _ => none) emptyDD (mkEnvMsg "v" "garbage") "D" "TS")
        "D" "v").head?
      = some ⟨"TS", pyStrOpt (string_to_name (fun _ => none) "garbage"),
          "garbage"⟩ :=
  ⟨⟨rfl, by decide⟩,
    raw_payload_stored_on_scan_miss (fun _ => none) (fun _ => none)
      (fun _ => none) emptyDD "D" "v" "TS" "garbage" rfl
      (Or.inl (by decide))⟩

/-! ### Lemmas on the upload watcher -/

theorem pollLoop_succ (o : Nat → Bool) (fuel : Nat) (cs : CloudStorage)
    (s : DState) (dId v f ts bkt : String) :
    pollLoop o (fuel + 1) cs s dId v f ts bkt
      = if isUploadedImageInBucket cs.dest f then (cs, s)
        else if !isUploadedImageInBucket cs.staging f then
          pollLoop o fuel cs s dId v f ts bkt
        else
          match moveFileBetweenBucketsInCloudStorage cs f bkt with
          | (cs1, none) => (cs1, s)
          | (cs1, some url) =>
            (cs1, (bq_data_insert o (saveImageURLtoDatastore s dId url v ts)
              (urlMessageObj v url) dId ts).1) := rfl

/-- The polling phase leaves the staging bucket unchanged, or removes
exactly the objects named `f`; it never touches the sweep log. -/
theorem pollLoop_staging (o : Nat → Bool) (dId v f ts bkt : String) :
    ∀ (fuel : Nat) (cs : CloudStorage) (s : DState),
      ((pollLoop o fuel cs s dId v f ts bkt).1.staging = cs.staging ∨
        (pollLoop o fuel cs s dId v f ts bkt).1.staging
          = cs.staging.filter (fun b => !(b.name == f))) ∧
      (pollLoop o fuel cs s dId v f ts bkt).1.sweepAttempts
        = cs.sweepAttempts := by
  intro fuel
  induction fuel with
  | zero => intro cs s; exact ⟨Or.inl rfl, rfl⟩
  | succ fuel ih =>
    intro cs s
    rw [pollLoop_succ]
    by_cases h1 : isUploadedImageInBucket cs.dest f
    · rw [if_pos h1]
      exact ⟨Or.inl rfl, rfl⟩
    · rw [if_neg h1]
      by_cases h2 : isUploadedImageInBucket cs.staging f
      · rw [if_neg (by simp [h2])]
        unfold moveFileBetweenBucketsInCloudStorage
        cases hf : cs.staging.find? (fun b => b.name == f) with
        | none => exact ⟨Or.inl rfl, rfl⟩
        | some obj => exact ⟨Or.inr rfl, rfl⟩
      · rw [if_pos (by simp [h2])]
        exact ih cs s

/-! ### Claim theorems: the upload watcher and the warehouse insert -/

/-- C6: an ImageUpload notice whose `fileName` already exists in the
destination bucket stops at the dedup check: no relocation is performed,
no image-URL entity is written and no warehouse row is appended. -/
theorem upload_already_handled_stops (outcome : Nat → Bool)
    (cs : CloudStorage) (s : DState) (m : Msg)
    (deviceId ts csBucket varName fileName : String)
    (hty : m.messageType = "ImageUpload")
    (hv : m.varName = some varName) (hfn : m.fileName = some fileName)
    (hdest : isUploadedImageInBucket cs.dest fileName = true) :
    (save_uploaded_image outcome cs s m deviceId ts csBucket).1.moved
        = cs.moved ∧
    (save_uploaded_image outcome cs s m deviceId ts csBucket).2.images
        = s.images ∧
    (save_uploaded_image outcome cs s m deviceId ts csBucket).2.bqRows
        = s.bqRows := by
  have hpoll : pollLoop outcome POLL_FUEL cs s deviceId varName fileName ts
      csBucket = (cs, s) := by
    rw [show POLL_FUEL = 30 + 1 from rfl, pollLoop_succ, if_pos hdest]
  unfold save_uploaded_image
  rw [if_neg (by
    intro hc
    rw [hty] at hc
    exact hc (by decide)), hv, hfn]
  dsimp only
  rw [hpoll]
  exact ⟨rfl, rfl, rfl⟩

/-- C6 witness: a notice for a file already at the destination. -/
theorem upload_already_handled_stops_witness :
    ((mkUploadMsg "cam" "f.png").messageType = "ImageUpload" ∧
      (mkUploadMsg "cam" "f.png").varName = some "cam" ∧
      (mkUploadMsg "cam" "f.png").fileName = some "f.png" ∧
      isUploadedImageInBucket
        (⟨[⟨"g.png", 30, false⟩], [⟨"f.png", 9999, false⟩], [], []⟩ :
          CloudStorage).dest "f.png" = true) ∧
    (save_uploaded_image (fun _ => true)
        ⟨[⟨"g.png", 30, false⟩], [⟨"f.png", 9999, false⟩], [], []⟩
        emptyDState (mkUploadMsg "cam" "f.png") "D" "TS" "BKT").1.moved
      = (⟨[⟨"g.png", 30, false⟩], [⟨"f.png", 9999, false⟩], [], []⟩ :
          CloudStorage).moved ∧
    (save_uploaded_image (fun _ => true)
        ⟨[⟨"g.png", 30, false⟩], [⟨"f.png", 9999, false⟩], [], []⟩
        emptyDState (mkUploadMsg "cam" "f.png") "D" "TS" "BKT").2.images
      = emptyDState.images ∧
    (save_uploaded_image (fun _ => true)
        ⟨[⟨"g.png", 30, false⟩], [⟨"f.png", 9999, false⟩], [], []⟩
        emptyDState (mkUploadMsg "cam" "f.png") "D" "TS" "BKT").2.bqRows
      = emptyDState.bqRows :=
  ⟨⟨rfl, rfl, rfl, by decide⟩,
    upload_already_handled_stops (fun _ => true)
      ⟨[⟨"g.png", 30, false⟩], [⟨"f.png", 9999, false⟩], [], []⟩
      emptyDState (mkUploadMsg "cam" "f.png") "D" "TS" "BKT" "cam" "f.png"
      rfl rfl rfl (by decide)⟩

/-- C7 counterexample: the notice's own file, present in staging and only
100 seconds old, is relocated by the polling phase — a staging object
younger than 2 hours that is not retained, contrary to the claim that
every such object is retained on every invocation. -/
theorem young_notice_file_not_retained :
    (100 < 2 * 60 * 60 ∧
      (⟨"f.png", 100, false⟩ : BlobObj) ∈
        (⟨[⟨"f.png", 100, false⟩], [], [], []⟩ : CloudStorage).staging) ∧
    (save_uploaded_image (fun _ => true) ⟨[⟨"f.png", 100, false⟩], [], [], []⟩
        emptyDState (mkUploadMsg "cam" "f.png") "D" "TS" "BKT").1.staging
      = [] := by
  decide

/-- C7 (amended): on every invocation carrying a valid notice, each
staging object other than the notice's own `fileName` is swept: if its
creation time is at least 2 hours past, a delete is attempted on it
(individual delete failures being suppressed), and if it is younger than
2 hours it is retained; the notice's own file may instead be relocated by
the polling phase regardless of age, and an invalid notice skips the
sweep. -/
theorem stale_sweep_other_objects (outcome : Nat → Bool)
    (cs : CloudStorage) (s : DState) (m : Msg)
    (deviceId ts csBucket varName fileName : String)
    (hty : m.messageType = "ImageUpload")
    (hv : m.varName = some varName) (hfn : m.fileName = some fileName) :
    ∀ b ∈ cs.staging, b.name ≠ fileName →
      (2 * 60 * 60 ≤ b.ageSeconds →
        b.name ∈ (save_uploaded_image outcome cs s m deviceId ts
          csBucket).1.sweepAttempts) ∧
      (b.ageSeconds < 2 * 60 * 60 →
        b ∈ (save_uploaded_image outcome cs s m deviceId ts
          csBucket).1.staging) := by
  intro b hb hbf
  have hrun : (save_uploaded_image outcome cs s m deviceId ts csBucket).1
      = sweepStale (pollLoop outcome POLL_FUEL cs s deviceId varName
          fileName ts csBucket).1 := by
    unfold save_uploaded_image
    rw [if_neg (by
      intro hc
      rw [hty] at hc
      exact hc (by decide)), hv, hfn]
  obtain ⟨hst, hsw⟩ := pollLoop_staging outcome deviceId varName fileName ts
    csBucket POLL_FUEL cs s
  have hbin : b ∈ (pollLoop outcome POLL_FUEL cs s deviceId varName fileName
      ts csBucket).1.staging := by
    rcases hst with h | h
    · rw [h]; exact hb
    · rw [h]
      refine List.mem_filter.2 ⟨hb, ?_⟩
      simp [hbf]
  rw [hrun]
  constructor
  · intro hold
    show b.name ∈ (sweepStale _).sweepAttempts
    unfold sweepStale
    dsimp only
    refine List.mem_append.2 (Or.inr ?_)
    exact List.mem_map.2 ⟨b, List.mem_filter.2 ⟨hbin, by simpa using hold⟩, rfl⟩
  · intro hyoung
    show b ∈ (sweepStale _).staging
    unfold sweepStale
    dsimp only
    refine List.mem_filter.2 ⟨hbin, ?_⟩
    rw [if_neg (by omega)]

/-- C7 amended witness: with the notice file absent everywhere, a stale
staging object gets a delete attempt and a fresh one survives. -/
theorem stale_sweep_other_objects_witness :
    (((mkUploadMsg "cam" "f.png").messageType = "ImageUpload" ∧
      (⟨"stale.png", 7200, false⟩ : BlobObj) ∈
        (⟨[⟨"stale.png", 7200, false⟩, ⟨"fresh.png", 60, false⟩], [], [], []⟩ :
          CloudStorage).staging ∧
      ("stale.png" : String) ≠ "f.png" ∧ 2 * 60 * 60 ≤ 7200) ∧
      ((⟨"fresh.png", 60, false⟩ : BlobObj) ∈
        (⟨[⟨"stale.png", 7200, false⟩, ⟨"fresh.png", 60, false⟩], [], [], []⟩ :
          CloudStorage).staging ∧
      ("fresh.png" : String) ≠ "f.png" ∧ 60 < 2 * 60 * 60)) ∧
    ("stale.png" : String) ∈ (save_uploaded_image (fun _ => true)
        ⟨[⟨"stale.png", 7200, false⟩, ⟨"fresh.png", 60, false⟩], [], [], []⟩
        emptyDState (mkUploadMsg "cam" "f.png") "D" "TS"
        "BKT").1.sweepAttempts ∧
    (⟨"fresh.png", 60, false⟩ : BlobObj) ∈ (save_uploaded_image (fun _ => true)
        ⟨[⟨"stale.png", 7200, false⟩, ⟨"fresh.png", 60, false⟩], [], [], []⟩
        emptyDState (mkUploadMsg "cam" "f.png") "D" "TS" "BKT").1.staging :=
  ⟨⟨⟨rfl, by decide, by decide, by decide⟩, by decide, by decide, by decide⟩,
    (stale_sweep_other_objects (fun _ => true)
      ⟨[⟨"stale.png", 7200, false⟩, ⟨"fresh.png", 60, false⟩], [], [], []⟩
      emptyDState (mkUploadMsg "cam" "f.png") "D" "TS" "BKT" "cam" "f.png"
      rfl rfl rfl ⟨"stale.png", 7200, false⟩ (by decide) (by decide)).1
      (by decide),
    (stale_sweep_other_objects (fun _ => true)
      ⟨[⟨"stale.png", 7200, false⟩, ⟨"fresh.png", 60, false⟩], [], [], []⟩
      emptyDState (mkUploadMsg "cam" "f.png") "D" "TS" "BKT" "cam" "f.png"
      rfl rfl rfl ⟨"fresh.png", 60, false⟩ (by decide) (by decide)).2
      (by decide)⟩

/-- C9 counterexample: under an insert oracle failing only the first
attempt, `bq_data_insert` stops after one attempt and reports failure,
while the specified `NUM_RETRIES = 3` retry loop would succeed — the code
does not perform the claimed 3-attempt retry. -/
theorem bq_insert_no_retry :
    (bq_data_insert (fun k => decide (0 < k)) emptyDState (mkEnvMsg "v" "p")
        "D" "TS").2.2 = 1 ∧
    (bq_data_insert (fun k => decide (0 < k)) emptyDState (mkEnvMsg "v" "p")
        "D" "TS").2.1 = false ∧
    (bq_data_insert_specRetry (fun k => decide (0 < k)) emptyDState
        (mkEnvMsg "v" "p") "D" "TS").2.1 = true ∧
    (1 : Nat) ≠ NUM_RETRIES := by
  decide

/-- C9 (amended): `bq_data_insert` makes at most one insert attempt
(`NUM_RETRIES = 3` is defined but never used); when the attempt fails it
logs, appends nothing and returns `False`; and the caller `save_data`
swallows the failure — its history-store result does not depend on the
insert outcome. -/
theorem bq_insert_single_attempt (outcome : Nat → Bool) (s : DState)
    (m : Msg) (deviceId ts : String) :
    (bq_data_insert outcome s m deviceId ts).2.2 ≤ 1 ∧
    (outcome 0 = false →
      (bq_data_insert outcome s m deviceId ts).2.1 = false ∧
      (bq_data_insert outcome s m deviceId ts).1.bqRows = s.bqRows) ∧
    (∀ (strictV innerEval : String → Option String)
        (strictN : String → Option (Option String)) (cs : CloudStorage)
        (dd : DeviceDataStore) (csBucket : String) (o' : Nat → Bool),
      validateMessageType m.messageType = some "EnvVar" →
      (save_data outcome strictV innerEval strictN cs s dd m deviceId ts
          csBucket).2.2
        = (save_data o' strictV innerEval strictN cs s dd m deviceId ts
            csBucket).2.2) := by
  refine ⟨?_, ?_, ?_⟩
  · unfold bq_data_insert
    rcases makeBQRowList m deviceId ts with ⟨rows, ok⟩
    cases ok <;> cases houtcome : outcome 0 <;> simp
  · intro h0
    unfold bq_data_insert
    rcases makeBQRowList m deviceId ts with ⟨rows, ok⟩
    cases ok <;> simp [h0]
  · intro sV iE sN cs dd bkt o' hty
    unfold save_data
    have h1 : ¬validateMessageType m.messageType = some "Image" := by
      intro hc
      rw [hty] at hc
      exact absurd hc (by decide)
    have h2 : ¬validateMessageType m.messageType = some "ImageUpload" := by
      intro hc
      rw [hty] at hc
      exact absurd hc (by decide)
    simp only [if_neg h1, if_neg h2]

/-- C9 amended witness: an always-failing oracle on a concrete message. -/
theorem bq_insert_single_attempt_witness :
    ((fun _ : Nat => false) 0 = false ∧
      validateMessageType (mkEnvMsg "v" "p").messageType = some "EnvVar") ∧
    (bq_data_insert (fun _ => false) emptyDState (mkEnvMsg "v" "p") "D"
        "TS").2.2 ≤ 1 ∧
    ((bq_data_insert (fun _ => false) emptyDState (mkEnvMsg "v" "p") "D"
        "TS").2.1 = false ∧
      (bq_data_insert (fun _ => false) emptyDState (mkEnvMsg "v" "p") "D"
        "TS").1.bqRows = emptyDState.bqRows) ∧
    (save_data (fun _ => false) (fun _ => none) (fun _ => none)
        (fun _ => none) emptyCS emptyDState emptyDD (mkEnvMsg "v" "p") "D"
        "TS" "BKT").2.2
      = (save_data (fun _ => true) (fun _ => none) (fun _ => none)
        (fun _ => none) emptyCS emptyDState emptyDD (mkEnvMsg "v" "p") "D"
        "TS" "BKT").2.2 :=
  ⟨⟨rfl, by decide⟩,
    (bq_insert_single_attempt (fun _ => false) emptyDState (mkEnvMsg "v" "p")
      "D" "TS").1,
    (bq_insert_single_attempt (fun _ => false) emptyDState (mkEnvMsg "v" "p")
      "D" "TS").2.1 rfl,
    (bq_insert_single_attempt (fun _ => false) emptyDState (mkEnvMsg "v" "p")
      "D" "TS").2.2 (fun _ => none) (fun _ => none) (fun _ => none) emptyCS
      emptyDD "BKT" (fun _ => true) (by decide)⟩

end MqttService
